import Mathlib

/-!
# Verification of the adaptive_professor session/thread-graph engine

This file formalises the session/thread graph engine of the
adaptive_professor repository and proves properties of it.

The repository snapshot available here contains the frontend
(TypeScript: `frontend/src/lib/api.ts`, `frontend/src/lib/a2ui-renderer.tsx`,
`frontend/src/lib/a2ui-types.ts`, React components), the Gherkin feature
files and the project documentation, but not the Python backend
(`src/session.py`, `src/main.py`) that implements the Thread Graph core.
Definitions of the core below are therefore modelled from the
specification's own description of the data model (spec sections 3 and 4)
and are marked as such in their doc comments.  Definitions concerning the
frontend payload shape and the A2UI renderer are translated directly from
the TypeScript sources present in the snapshot.
-/

namespace AdaptiveProfessor

/-! ## Core data model (modelled from the spec) -/

/-- Modelled from the spec: thread kind, `main` or `detour`
(spec section 3, Thread attributes; backend `session.py` missing from the
snapshot). -/
inductive ThreadKind where
  | main
  | detour
deriving DecidableEq

/-- Modelled from the spec: thread status, `active`, `suspended` or
`archived` (spec section 3; backend missing from the snapshot). -/
inductive ThreadStatus where
  | active
  | suspended
  | archived
deriving DecidableEq

/-- Modelled from the spec: an action descriptor offered on a slide
(name, label, parameters; spec section 3, Slide attributes). -/
structure ActionDescriptor where
  name : String
  label : String
  params : List (String × String)
deriving DecidableEq

/-- Modelled from the spec: a slide record — unique id, owning thread id,
position index within the thread, opaque content payload, available action
descriptors, and a provenance tag saying why it was created
(spec section 3, Slide). -/
structure Slide where
  id : Nat
  threadId : Nat
  position : Nat
  content : String
  actions : List ActionDescriptor
  provenance : String
deriving DecidableEq

/-- Modelled from the spec: the origin of a detour thread — the
(parent thread id, parent position) it was spawned from (spec section 3). -/
structure Origin where
  threadId : Nat
  position : Nat
deriving DecidableEq

/-- Modelled from the spec: a thread — unique id, kind, ordered slide
sequence, origin reference (present exactly on detours) and status
(spec section 3, Thread). -/
structure Thread where
  id : Nat
  kind : ThreadKind
  slides : List Slide
  origin : Option Origin
  status : ThreadStatus
deriving DecidableEq

/-- Modelled from the spec: the cursor — the single
(active thread id, position) pointer of a session (spec section 3). -/
structure Cursor where
  threadId : Nat
  position : Nat
deriving DecidableEq

/-- Modelled from the spec: the Thread Graph, aggregate root of a session —
session id, the main thread, the detour map (association by thread id),
the cursor, a knowledge-level tag, and fresh-id counters for threads and
slides (spec section 3, Thread Graph). -/
structure ThreadGraph where
  sessionId : String
  mainThread : Thread
  detours : List Thread
  cursor : Cursor
  knowledgeLevel : String
  nextThreadId : Nat
  nextSlideId : Nat
deriving DecidableEq

/-- Modelled from the spec: the errors of the core's taxonomy
(spec section 7).  `MissingParameter` stands for the router's required
parameter validation, whose failure the spec does not name. -/
inductive OpError where
  | GenerationFailure
  | InvalidPosition
  | NotFound
  | NoOpAdvance
  | AtStart
  | NotInDetour
  | UnsupportedAction
  | SessionBusy
  | StaleOperation
  | MissingParameter
deriving DecidableEq

/-- Modelled from the spec: a generation request handed to the Generation
Gateway — thread kind, knowledge level, the triggering input, the prior
slide contents for continuity, and the explicit supersedes-position signal
for regeneration (spec section 4.4). -/
structure GenRequest where
  threadKind : ThreadKind
  knowledgeLevel : String
  trigger : String
  prior : List String
  supersedes : Option Nat
deriving DecidableEq

/-- Modelled from the spec: the Gateway's success result — slide content
payload plus the freshly computed action descriptors (spec section 4.4). -/
structure GenOut where
  content : String
  actions : List ActionDescriptor
deriving DecidableEq

/-- The Generation Gateway abstracted as a black-box function: given a
request, generated content or failure (spec sections 2 and 6). -/
def Gen : Type := GenRequest → Option GenOut

/-! ## Thread operations (spec section 4.1) -/

/-- Modelled from the spec: `append` — adds a new slide at the end,
assigns the next position, marks the thread active (spec section 4.1). -/
def Thread.appendSlide (t : Thread) (s : Slide) : Thread :=
  { t with slides := t.slides ++ [s], status := ThreadStatus.active }

/-- Build a slide record for a thread position. -/
def mkSlide (sid tid pos : Nat) (out : GenOut) (prov : String) : Slide :=
  { id := sid, threadId := tid, position := pos, content := out.content,
    actions := out.actions, provenance := prov }

/-- Modelled from the spec: `replaceAt` — in-place regeneration; fails
with `InvalidPosition` when the position is out of range, otherwise puts
the regenerated slide at the position and discards every slide after it
(spec section 4.1: replacing a slide discards all slides after it). -/
def Thread.replaceAt (t : Thread) (p : Nat) (sid : Nat) (out : GenOut)
    (prov : String) : Except OpError (Thread × Slide) :=
  if p < t.slides.length then
    let s := mkSlide sid t.id p out prov
    Except.ok ({ t with slides := t.slides.take p ++ [s] }, s)
  else
    Except.error OpError.InvalidPosition

/-- Modelled from the spec: `slideAt` — fails with `NotFound` when out of
range (spec section 4.1). -/
def Thread.slideAt (t : Thread) (p : Nat) : Except OpError Slide :=
  match t.slides[p]? with
  | some s => Except.ok s
  | none => Except.error OpError.NotFound

/-! ## Thread Graph operations (spec section 4.2) -/

/-- Look a thread up by id: the main thread or an entry of the detour
map. -/
def ThreadGraph.findThread (g : ThreadGraph) (tid : Nat) : Option Thread :=
  if tid = g.mainThread.id then some g.mainThread
  else g.detours.find? (fun t => t.id = tid)

/-- Store back a thread under its id (the main thread or the detour map
entry with that id). -/
def ThreadGraph.setThread (g : ThreadGraph) (u : Thread) : ThreadGraph :=
  if u.id = g.mainThread.id then { g with mainThread := u }
  else { g with detours := g.detours.map (fun t => if t.id = u.id then u else t) }

/-- All threads of the graph, the main thread first. -/
def ThreadGraph.threads (g : ThreadGraph) : List Thread :=
  g.mainThread :: g.detours

/-- Prior slide contents of the cursor thread, for generation context. -/
def ThreadGraph.priorContents (g : ThreadGraph) : List String :=
  match g.findThread g.cursor.threadId with
  | some t => t.slides.map (fun s => s.content)
  | none => []

/-- The generation request built by the Synthesizer for `advance`
("continue" framing). -/
def ThreadGraph.advanceRequest (g : ThreadGraph) (k : ThreadKind) : GenRequest :=
  { threadKind := k, knowledgeLevel := g.knowledgeLevel, trigger := "continue",
    prior := g.priorContents, supersedes := none }

/-- The generation request built by the Synthesizer for `branch`. -/
def ThreadGraph.branchRequest (g : ThreadGraph) (concept : String) : GenRequest :=
  { threadKind := ThreadKind.detour, knowledgeLevel := g.knowledgeLevel,
    trigger := concept, prior := g.priorContents, supersedes := none }

/-- The generation request built by the Synthesizer when a return to the
origin thread must materialize the resume slide. -/
def ThreadGraph.resumeRequest (g : ThreadGraph) (k : ThreadKind) : GenRequest :=
  { threadKind := k, knowledgeLevel := g.knowledgeLevel, trigger := "resume",
    prior := g.priorContents, supersedes := none }

/-- The generation request built by the Synthesizer for in-place
regeneration; it explicitly signals the superseded position
(spec section 4.4). -/
def ThreadGraph.regenRequest (g : ThreadGraph) (k : ThreadKind)
    (styleHint : String) : GenRequest :=
  { threadKind := k, knowledgeLevel := g.knowledgeLevel, trigger := styleHint,
    prior := g.priorContents, supersedes := some g.cursor.position }

/-- The generation request built by the Synthesizer for `extend`. -/
def ThreadGraph.extendRequest (g : ThreadGraph) (k : ThreadKind) : GenRequest :=
  { threadKind := k, knowledgeLevel := g.knowledgeLevel, trigger := "extend",
    prior := g.priorContents, supersedes := none }

/-- Modelled from the spec: `start(topic)` — creates the graph with an
empty main thread, invokes the Synthesizer for an initial slide, appends
it, sets the cursor to (main, 0); propagates `GenerationFailure`
(spec section 4.2). -/
def ThreadGraph.start (gen : Gen) (sessionId topic : String) :
    Except OpError (ThreadGraph × Slide) :=
  match gen { threadKind := ThreadKind.main, knowledgeLevel := "standard",
              trigger := topic, prior := [], supersedes := none } with
  | none => Except.error OpError.GenerationFailure
  | some out =>
    let s := mkSlide 0 0 0 out "start"
    let t : Thread :=
      { id := 0, kind := ThreadKind.main, slides := [s], origin := none,
        status := ThreadStatus.active }
    Except.ok
      ({ sessionId := sessionId,
         mainThread := t,
         detours := [],
         cursor := { threadId := 0, position := 0 },
         knowledgeLevel := "standard",
         nextThreadId := 1,
         nextSlideId := 1 }, s)

/-- Modelled from the spec: `advance()` — if a next slide already exists
at position+1 it is reused without calling the Synthesizer; only when no
slide exists there is the Synthesizer called and its result appended; the
cursor moves forward by one (spec section 4.2). -/
def ThreadGraph.advance (gen : Gen) (g : ThreadGraph) :
    Except OpError (ThreadGraph × Slide) :=
  match g.findThread g.cursor.threadId with
  | none => Except.error OpError.NotFound
  | some t =>
    match t.slides[g.cursor.position + 1]? with
    | some s =>
      Except.ok
        ({ g with cursor := { threadId := g.cursor.threadId,
                              position := g.cursor.position + 1 } }, s)
    | none =>
      match gen (g.advanceRequest t.kind) with
      | none => Except.error OpError.GenerationFailure
      | some out =>
        let s := mkSlide g.nextSlideId t.id t.slides.length out "advance"
        let t' := t.appendSlide s
        Except.ok
          ({ g.setThread t' with
             cursor := { threadId := g.cursor.threadId,
                         position := g.cursor.position + 1 },
             nextSlideId := g.nextSlideId + 1 }, s)

/-- Modelled from the spec: `goBack()` — moves the cursor to position-1 in
the active thread; fails with `AtStart` at position 0 (spec section 4.2). -/
def ThreadGraph.goBack (g : ThreadGraph) : Except OpError (ThreadGraph × Slide) :=
  match g.findThread g.cursor.threadId with
  | none => Except.error OpError.NotFound
  | some t =>
    match g.cursor.position with
    | 0 => Except.error OpError.AtStart
    | p + 1 =>
      match t.slides[p]? with
      | none => Except.error OpError.NotFound
      | some s =>
        Except.ok
          ({ g with cursor := { threadId := g.cursor.threadId, position := p } }, s)

/-- Modelled from the spec: `branch(triggerConcept)` — tentatively
constructs a new detour thread whose origin is the current
(thread, position), then calls the Synthesizer; on failure the tentative
thread is never published and the graph is left untouched; on success the
current thread is suspended, the new detour (holding the generated slide)
is added to the detour map as the active thread and the cursor is set to
(new thread, 0) (spec sections 4.2 and 7, validate-then-commit). -/
def ThreadGraph.branch (gen : Gen) (g : ThreadGraph) (concept : String) :
    Except OpError (ThreadGraph × Slide) :=
  match g.findThread g.cursor.threadId with
  | none => Except.error OpError.NotFound
  | some t =>
    let d : Thread :=
      { id := g.nextThreadId, kind := ThreadKind.detour, slides := [],
        origin := some { threadId := g.cursor.threadId,
                         position := g.cursor.position },
        status := ThreadStatus.suspended }
    match gen (g.branchRequest concept) with
    | none => Except.error OpError.GenerationFailure
    | some out =>
      let s := mkSlide g.nextSlideId d.id 0 out "branch"
      let d' := d.appendSlide s
      let g1 := g.setThread { t with status := ThreadStatus.suspended }
      Except.ok
        ({ g1 with
           detours := g1.detours ++ [d'],
           cursor := { threadId := d.id, position := 0 },
           nextThreadId := g.nextThreadId + 1,
           nextSlideId := g.nextSlideId + 1 }, s)

/-- Modelled from the spec: `returnToMain()` — from a detour thread only
(`NotInDetour` otherwise): suspends the detour, reactivates the thread
referenced by the detour's origin and sets the cursor to
origin.position + 1; when no slide exists yet at that position the
returned slide is freshly generated there (spec sections 4.2 and 8). -/
def ThreadGraph.returnToMain (gen : Gen) (g : ThreadGraph) :
    Except OpError (ThreadGraph × Slide) :=
  match g.findThread g.cursor.threadId with
  | none => Except.error OpError.NotFound
  | some t =>
    match t.origin with
    | none => Except.error OpError.NotInDetour
    | some o =>
      match g.findThread o.threadId with
      | none => Except.error OpError.NotFound
      | some pt =>
        match pt.slides[o.position + 1]? with
        | some s =>
          let g1 := g.setThread { t with status := ThreadStatus.suspended }
          Except.ok
            ({ g1.setThread { pt with status := ThreadStatus.active } with
               cursor := { threadId := o.threadId, position := o.position + 1 } }, s)
        | none =>
          match gen (g.resumeRequest pt.kind) with
          | none => Except.error OpError.GenerationFailure
          | some out =>
            let s := mkSlide g.nextSlideId pt.id pt.slides.length out "resume"
            let pt' := Thread.appendSlide { pt with status := ThreadStatus.active } s
            let g1 := g.setThread { t with status := ThreadStatus.suspended }
            Except.ok
              ({ g1.setThread pt' with
                 cursor := { threadId := o.threadId, position := o.position + 1 },
                 nextSlideId := g.nextSlideId + 1 }, s)

/-- Modelled from the spec: `regenerateCurrent(styleHint)` — requests
regenerated content for the slide at the cursor and applies `replaceAt` at
the current position on the active thread (spec section 4.2). -/
def ThreadGraph.regenerateCurrent (gen : Gen) (g : ThreadGraph)
    (styleHint : String) : Except OpError (ThreadGraph × Slide) :=
  match g.findThread g.cursor.threadId with
  | none => Except.error OpError.NotFound
  | some t =>
    match gen (g.regenRequest t.kind styleHint) with
    | none => Except.error OpError.GenerationFailure
    | some out =>
      match t.replaceAt g.cursor.position g.nextSlideId out "regenerate" with
      | Except.error e => Except.error e
      | Except.ok (t', s) =>
        Except.ok
          ({ g.setThread t' with nextSlideId := g.nextSlideId + 1 }, s)

/-- Append `count` generated slides at the end of a thread; `none` when
any generation fails. -/
def Thread.extendSlides (gen : Gen) (req : GenRequest) (t : Thread)
    (sid : Nat) : Nat → Option Thread
  | 0 => some t
  | n + 1 =>
    match gen req with
    | none => none
    | some out =>
      Thread.extendSlides gen req
        (t.appendSlide (mkSlide sid t.id t.slides.length out "extend"))
        (sid + 1) n

/-- Modelled from the spec: `extend(count)` — appends `count` additional
slides after the current end of the active thread without moving the
cursor off the currently viewed slide (spec section 4.2). -/
def ThreadGraph.extend (gen : Gen) (g : ThreadGraph) (count : Nat) :
    Except OpError (ThreadGraph × Slide) :=
  match g.findThread g.cursor.threadId with
  | none => Except.error OpError.NotFound
  | some t =>
    match t.slides[g.cursor.position]? with
    | none => Except.error OpError.NotFound
    | some cur =>
      match Thread.extendSlides gen (g.extendRequest t.kind) t g.nextSlideId count with
      | none => Except.error OpError.GenerationFailure
      | some t' =>
        Except.ok
          ({ g.setThread t' with nextSlideId := g.nextSlideId + count }, cur)

/-! ## Action Router and external interface (spec sections 4.3 and 6) -/

/-- Modelled from the spec: the graph operations the Action Router can
dispatch to (spec section 4.3: advance, go back, branch, return,
regenerate-in-place, extend). -/
inductive ActionKind where
  | advanceA
  | goBackA
  | branchA
  | returnA
  | regenA
  | extendA
deriving DecidableEq

/-- Modelled from the spec: the Action Router's fixed vocabulary of action
names (spec section 4.3). -/
def actionVocabulary : List String :=
  ["advance", "goBack", "branch", "returnToMain", "regenerateCurrent", "extend"]

/-- Modelled from the spec: the Router's pure dispatch table from action
name to graph operation; `none` for an unknown name (spec section 4.3). -/
def routeAction (name : String) : Option ActionKind :=
  if name = "advance" then some ActionKind.advanceA
  else if name = "goBack" then some ActionKind.goBackA
  else if name = "branch" then some ActionKind.branchA
  else if name = "returnToMain" then some ActionKind.returnA
  else if name = "regenerateCurrent" then some ActionKind.regenA
  else if name = "extend" then some ActionKind.extendA
  else none

/-- Look a parameter up in the parameter bag. -/
def paramLookup (params : List (String × String)) (key : String) : Option String :=
  (params.find? (fun p => p.1 = key)).map (fun p => p.2)

/-- Modelled from the spec: dispatch a routed action to the Thread Graph,
validating required parameters (`branch` requires `concept`;
`regenerateCurrent` takes an optional style hint; `extend` takes an
optional count, defaulting to one) (spec section 4.3). -/
def dispatchAction (gen : Gen) (g : ThreadGraph) (a : ActionKind)
    (params : List (String × String)) : Except OpError (ThreadGraph × Slide) :=
  match a with
  | ActionKind.advanceA => g.advance gen
  | ActionKind.goBackA => g.goBack
  | ActionKind.branchA =>
    match paramLookup params "concept" with
    | none => Except.error OpError.MissingParameter
    | some c => g.branch gen c
  | ActionKind.returnA => g.returnToMain gen
  | ActionKind.regenA =>
    g.regenerateCurrent gen ((paramLookup params "style").getD "")
  | ActionKind.extendA =>
    g.extend gen (((paramLookup params "count").bind String.toNat?).getD 1)

/-- Modelled from the spec: the `SessionState` value returned to the
caller — session id, active thread kind, current slide (content plus
action descriptors), position index and total known length of the active
thread (spec section 6). -/
structure SessionState where
  sessionId : String
  activeThreadKind : ThreadKind
  currentSlide : Slide
  positionIndex : Nat
  totalKnownLength : Nat
deriving DecidableEq

/-- Build the `SessionState` view of a graph and its current slide. -/
def mkSessionState (g : ThreadGraph) (s : Slide) : SessionState :=
  match g.findThread g.cursor.threadId with
  | some t =>
    { sessionId := g.sessionId, activeThreadKind := t.kind, currentSlide := s,
      positionIndex := g.cursor.position, totalKnownLength := t.slides.length }
  | none =>
    { sessionId := g.sessionId, activeThreadKind := ThreadKind.main,
      currentSlide := s, positionIndex := g.cursor.position,
      totalKnownLength := 0 }

/-- The per-session store of the core, keyed by session id. -/
def SessionStore : Type := List (String × ThreadGraph)

/-- Update the entry of one session in the store. -/
def storeSet (store : SessionStore) (sid : String) (g : ThreadGraph) :
    SessionStore :=
  List.map (fun e => if e.1 = sid then (sid, g) else e) store

/-- Look a session up in the store. -/
def storeGet (store : SessionStore) (sid : String) : Option ThreadGraph :=
  (List.find? (fun e => e.1 = sid) store).map (fun e => e.2)

/-- Modelled from the spec: `performAction(sessionId, actionName, params)`
— routes the action name through the dispatch table (unknown names fail
with `UnsupportedAction` and mutate nothing), loads the session, applies
the graph operation and stores the result; the returned store is the
pre-call store whenever the call fails (spec sections 4.3, 6 and 7). -/
def performAction (gen : Gen) (store : SessionStore) (sid name : String)
    (params : List (String × String)) :
    SessionStore × Except OpError SessionState :=
  match routeAction name with
  | none => (store, Except.error OpError.UnsupportedAction)
  | some a =>
    match storeGet store sid with
    | none => (store, Except.error OpError.NotFound)
    | some g =>
      match dispatchAction gen g a params with
      | Except.error e => (store, Except.error e)
      | Except.ok (g', s) => (storeSet store sid g', Except.ok (mkSessionState g' s))

/-! ## Frontend API payload shape (from `frontend/src/lib/api.ts`) -/

/-- `SlideContent` of `frontend/src/lib/api.ts`. -/
structure SlideContent where
  title : String
  text : String
  diagram_code : Option String
deriving DecidableEq

/-- `InteractiveControl` of `frontend/src/lib/api.ts`. -/
structure InteractiveControl where
  label : String
  action : String
  params : Option (List (String × String))
deriving DecidableEq

/-- `SlidePayload` of `frontend/src/lib/api.ts` — the response shape of
both `startLecture` and `performAction` on the wire. -/
structure SlidePayload where
  type : String
  slide_id : String
  session_id : Option String
  layout : String
  content : SlideContent
  interactive_controls : List InteractiveControl
  allow_freeform_input : Bool
  slide_index : Nat
  total_slides : Nat
deriving DecidableEq

/-- The serialized field names of `SlidePayload`, in declaration order
(`frontend/src/lib/api.ts`, interface `SlidePayload`). -/
def slidePayloadFieldNames : List String :=
  ["type", "slide_id", "session_id", "layout", "content",
   "interactive_controls", "allow_freeform_input", "slide_index",
   "total_slides"]

/-- The `SessionState` contract field names as the spec words them
(spec section 6): sessionId, activeThreadKind, currentSlide, position
index, total-known-length.  This definition follows the spec's words, to
be compared against the payload shape the frontend source declares. -/
def specContractFieldNames : List String :=
  ["sessionId", "activeThreadKind", "currentSlide", "positionIndex",
   "totalKnownLength"]

/-- The contract meaning of each `SlidePayload` field, read generously:
`session_id` carries the session id, `content` and `interactive_controls`
together carry the current slide with its action descriptors,
`slide_index` carries the position index and `total_slides` the total
known length; the remaining payload fields carry no contract field. -/
def payloadFieldMeaning (field : String) : Option String :=
  if field = "session_id" then some "sessionId"
  else if field = "content" then some "currentSlide"
  else if field = "interactive_controls" then some "currentSlide"
  else if field = "slide_index" then some "positionIndex"
  else if field = "total_slides" then some "totalKnownLength"
  else none

/-- The exact-field contract of the claim: every spec contract field is
carried by some payload field, and every payload field carries a spec
contract field. -/
def payloadMatchesContract : Prop :=
  (∀ c ∈ specContractFieldNames,
    ∃ p ∈ slidePayloadFieldNames, payloadFieldMeaning p = some c) ∧
  (∀ p ∈ slidePayloadFieldNames,
    ∃ c ∈ specContractFieldNames, payloadFieldMeaning p = some c)

instance : Decidable payloadMatchesContract := by
  unfold payloadMatchesContract
  infer_instance

/-! ## A2UI component model and renderer
(from `frontend/src/lib/a2ui-types.ts` and
`frontend/src/lib/a2ui-renderer.tsx`) -/

/-- `A2UIAction` of `a2ui-types.ts`: a name plus a parameter record. -/
structure A2UIAction where
  name : String
  parameters : List (String × String)
deriving DecidableEq

/-- The `Component` union of `a2ui-types.ts` (the base fields `id` and
`style` are presentation-only and the renderer never branches on them). -/
inductive Component where
  | text (content : String) (variant : String)
  | markdown (content : String)
  | button (label : String) (action : A2UIAction) (variant : String)
      (disabled : Bool)
  | container (layout : String) (children : List Component)
  | code (code : String) (language : String) (show_line_numbers : Bool)
  | image (src : String) (alt : String) (caption : Option String)
  | concept_map (mermaid_code : Option String) (json_data : Option String)
  | code_execution (code : String) (language : String)

/-- The `type` tag each `Component` variant carries on the wire
(`a2ui-types.ts`). -/
def componentTypeTag : Component → String
  | Component.text _ _ => "text"
  | Component.markdown _ => "markdown"
  | Component.button _ _ _ _ => "button"
  | Component.container _ _ => "container"
  | Component.code _ _ _ => "code"
  | Component.image _ _ _ => "image"
  | Component.concept_map _ _ => "concept_map"
  | Component.code_execution _ _ => "code_execution"

/-- The `type` tags the renderer's switch handles
(`a2ui-renderer.tsx`, `A2UIComponentRenderer`). -/
def handledTypeTags : List String :=
  ["container", "button", "text", "markdown", "concept_map", "code_execution"]

/-- A node of `ConceptMapData` (`components/ConceptMap.tsx`). -/
inductive ConceptNode where
  | node (name : String) (children : List ConceptNode)

/-- `ConceptMapData` of `components/ConceptMap.tsx`. -/
structure ConceptMapData where
  root : String
  branches : List ConceptNode

/-- The abstract render output of `A2UIComponentRenderer`: which visual
element each handled component produces.  A `none` child of a container
is a React `null` child (renders nothing). -/
inductive Rendered where
  | containerNode (layout : String) (children : List (Option Rendered))
  | buttonNode (label : String) (actionName : String)
  | textNode (variant : String) (content : String)
  | markdownNode (content : String)
  | conceptMapNode (data : ConceptMapData)
  | invalidConceptMapNode
  | codeExecNode (code : String) (language : String)

/-- `ConceptMapRenderer` of `a2ui-renderer.tsx`: when `mermaid_code` is
truthy (present and non-empty) it is parsed with `parseMermaidMindmap`
(imported from `components/ConceptMap.tsx`, abstracted here as the
`parse` argument); a parsed result renders the concept map, everything
else renders the invalid-data notice. -/
def renderConceptMap (parse : String → Option ConceptMapData)
    (mermaid_code : Option String) : Rendered :=
  match mermaid_code with
  | some code =>
    if code = "" then Rendered.invalidConceptMapNode
    else
      match parse code with
      | some d => Rendered.conceptMapNode d
      | none => Rendered.invalidConceptMapNode
  | none => Rendered.invalidConceptMapNode

mutual

/-- `A2UIComponentRenderer` of `a2ui-renderer.tsx`: the switch over
`component.type` rendering the six handled variants; every other variant
(in particular `code` and `image`) falls through to the default branch
and returns `null`, modelled as `none`. -/
def renderComponent (parse : String → Option ConceptMapData) :
    Component → Option Rendered
  | Component.container layout children =>
    some (Rendered.containerNode layout (renderComponentList parse children))
  | Component.button label action _ _ =>
    some (Rendered.buttonNode label action.name)
  | Component.text content variant =>
    some (Rendered.textNode variant content)
  | Component.markdown content =>
    some (Rendered.markdownNode content)
  | Component.concept_map mermaid_code _ =>
    some (renderConceptMap parse mermaid_code)
  | Component.code_execution code language =>
    some (Rendered.codeExecNode code language)
  | Component.code _ _ _ => none
  | Component.image _ _ _ => none

/-- Render the children of a container, in order. -/
def renderComponentList (parse : String → Option ConceptMapData) :
    List Component → List (Option Rendered)
  | [] => []
  | c :: cs => renderComponent parse c :: renderComponentList parse cs

end

/-! ## Invariants of the Thread Graph -/

/-- The origin chain from a thread id is intact: every ancestor reached by
iterating `origin` exists, has strictly smaller id, is not archived, and
the recorded origin position is a valid index in it. -/
inductive ChainOk (g : ThreadGraph) : Nat → Prop where
  | root (tid : Nat) (t : Thread) :
      g.findThread tid = some t → t.origin = none → ChainOk g tid
  | step (tid : Nat) (t : Thread) (o : Origin) (pt : Thread) :
      g.findThread tid = some t → t.origin = some o →
      o.threadId < tid → g.findThread o.threadId = some pt →
      o.position < pt.slides.length → pt.status ≠ ThreadStatus.archived →
      ChainOk g o.threadId → ChainOk g tid

/-- Well-formedness of a Thread Graph: the inductive invariant maintained
by every operation. -/
structure WF (g : ThreadGraph) : Prop where
  main_id : g.mainThread.id = 0
  main_kind : g.mainThread.kind = ThreadKind.main
  main_origin : g.mainThread.origin = none
  next_pos : 1 ≤ g.nextThreadId
  detour_id_pos : ∀ d ∈ g.detours, 1 ≤ d.id
  detour_id_lt : ∀ d ∈ g.detours, d.id < g.nextThreadId
  detour_kind : ∀ d ∈ g.detours, d.kind = ThreadKind.detour
  detour_origin : ∀ d ∈ g.detours, d.origin ≠ none
  ids_nodup : (g.threads.map (fun t => t.id)).Nodup
  cursor_found : ∃ t, g.findThread g.cursor.threadId = some t ∧
    g.cursor.position < t.slides.length
  active_iff : ∀ tid t, g.findThread tid = some t →
    (t.status = ThreadStatus.active ↔ tid = g.cursor.threadId)
  chain : ChainOk g g.cursor.threadId

/-- The number of active threads of a graph. -/
def ThreadGraph.activeCount (g : ThreadGraph) : Nat :=
  (g.threads.filter (fun t => t.status == ThreadStatus.active)).length

/-- The cursor-validity property the spec states as the session invariant:
the cursor references the main thread or a non-archived detour, its
position is a valid index into that thread's slides, and at most one
thread is active. -/
def CursorValid (g : ThreadGraph) : Prop :=
  (g.cursor.threadId = g.mainThread.id ∨
    ∃ d ∈ g.detours, d.id = g.cursor.threadId ∧
      d.status ≠ ThreadStatus.archived) ∧
  (∃ t, g.findThread g.cursor.threadId = some t ∧
    g.cursor.position < t.slides.length) ∧
  g.activeCount ≤ 1

/-! ## Lookup and update lemmas -/

theorem find_swap_ne (l : List Thread) (u : Thread) (tid : Nat)
    (h : tid ≠ u.id) :
    (l.map (fun t => if t.id = u.id then u else t)).find?
      (fun t => t.id = tid) = l.find? (fun t => t.id = tid) := by
  induction l with
  | nil => rfl
  | cons x xs ih =>
    simp only [List.map_cons]
    by_cases hx : x.id = u.id
    · rw [if_pos hx]
      rw [List.find?_cons_of_neg _ (by simp; exact fun h2 => h h2.symm)]
      rw [List.find?_cons_of_neg _
        (by simp; exact fun h2 => h (hx.symm.trans h2).symm)]
      exact ih
    · rw [if_neg hx]
      by_cases hp : x.id = tid
      · rw [List.find?_cons_of_pos _ (by simp [hp]),
          List.find?_cons_of_pos _ (by simp [hp])]
      · rw [List.find?_cons_of_neg _ (by simp [hp]),
          List.find?_cons_of_neg _ (by simp [hp])]
        exact ih

theorem find_swap_self (l : List Thread) (u : Thread) (t : Thread)
    (h : l.find? (fun x => x.id = u.id) = some t) :
    (l.map (fun x => if x.id = u.id then u else x)).find?
      (fun x => x.id = u.id) = some u := by
  induction l with
  | nil => simp [List.find?] at h
  | cons x xs ih =>
    simp only [List.map_cons]
    by_cases hx : x.id = u.id
    · rw [if_pos hx]
      exact List.find?_cons_of_pos _ (by simp)
    · rw [if_neg hx]
      rw [List.find?_cons_of_neg _ (by simp [hx])] at h
      rw [List.find?_cons_of_neg _ (by simp [hx])]
      exact ih h

theorem find_none_of_all_ne (l : List Thread) (tid : Nat)
    (h : ∀ t ∈ l, t.id ≠ tid) :
    l.find? (fun t => t.id = tid) = none := by
  induction l with
  | nil => rfl
  | cons x xs ih =>
    rw [List.find?_cons_of_neg _ (by simp [h x (List.mem_cons_self x xs)])]
    exact ih (fun t ht => h t (List.mem_cons_of_mem x ht))

theorem find_append_last (l : List Thread) (u : Thread)
    (h : ∀ t ∈ l, t.id ≠ u.id) :
    (l ++ [u]).find? (fun t => t.id = u.id) = some u := by
  induction l with
  | nil => exact List.find?_cons_of_pos _ (by simp)
  | cons x xs ih =>
    simp only [List.cons_append]
    rw [List.find?_cons_of_neg _ (by simp [h x (List.mem_cons_self x xs)])]
    exact ih (fun t ht => h t (List.mem_cons_of_mem x ht))

theorem find_append_ne (l : List Thread) (u : Thread) (tid : Nat)
    (h : tid ≠ u.id) :
    (l ++ [u]).find? (fun t => t.id = tid) = l.find? (fun t => t.id = tid) := by
  induction l with
  | nil =>
    simp only [List.nil_append]
    rw [List.find?_cons_of_neg _ (by simp; exact fun h2 => h h2.symm)]
  | cons x xs ih =>
    simp only [List.cons_append]
    by_cases hp : x.id = tid
    · rw [List.find?_cons_of_pos _ (by simp [hp]),
        List.find?_cons_of_pos _ (by simp [hp])]
    · rw [List.find?_cons_of_neg _ (by simp [hp]),
        List.find?_cons_of_neg _ (by simp [hp])]
      exact ih

/-- A successful lookup returns a thread with the requested id that is a
member of the graph. -/
theorem findThread_some (g : ThreadGraph) (tid : Nat) (t : Thread)
    (h : g.findThread tid = some t) : t.id = tid ∧ t ∈ g.threads := by
  unfold ThreadGraph.findThread at h
  by_cases hm : tid = g.mainThread.id
  · rw [if_pos hm] at h
    cases h
    exact ⟨hm.symm, List.mem_cons_self _ _⟩
  · rw [if_neg hm] at h
    have h1 := List.find?_some h
    have h2 := List.mem_of_find?_eq_some h
    simp only [decide_eq_true_eq] at h1
    exact ⟨h1, List.mem_cons_of_mem _ h2⟩

theorem findThread_setThread_self (g : ThreadGraph) (u t : Thread)
    (h : g.findThread u.id = some t) :
    (g.setThread u).findThread u.id = some u := by
  unfold ThreadGraph.findThread ThreadGraph.setThread at *
  by_cases hm : u.id = g.mainThread.id
  · simp [hm]
  · rw [if_neg hm] at h ⊢
    simp only [if_neg hm]
    exact find_swap_self g.detours u t h

theorem findThread_setThread_ne (g : ThreadGraph) (u : Thread) (tid : Nat)
    (h : tid ≠ u.id) :
    (g.setThread u).findThread tid = g.findThread tid := by
  unfold ThreadGraph.findThread ThreadGraph.setThread
  by_cases hm : u.id = g.mainThread.id
  · rw [if_pos hm]
    simp only
    have h1 : ¬ (tid = u.id) := h
    have h2 : ¬ (tid = g.mainThread.id) := fun hx => h (hx.trans hm.symm)
    rw [if_neg h1, if_neg h2]
  · rw [if_neg hm]
    simp only
    by_cases ht : tid = g.mainThread.id
    · rw [if_pos ht, if_pos ht]
    · rw [if_neg ht, if_neg ht]
      exact find_swap_ne g.detours u tid h

/-- `setThread` keeps the id list of the graph unchanged when the stored
thread replaces one with its own id. -/
theorem ids_setThread (g : ThreadGraph) (u : Thread) :
    ((g.setThread u).threads.map (fun t => t.id)) =
      (g.threads.map (fun t => t.id)) ∨ u.id = g.mainThread.id := by
  unfold ThreadGraph.setThread ThreadGraph.threads
  by_cases hm : u.id = g.mainThread.id
  · right; exact hm
  · left
    rw [if_neg hm]
    simp only [List.map_cons, List.map_map]
    congr 1
    apply List.map_congr_left
    intro t _
    by_cases ht : t.id = u.id
    · simp [ht]
    · simp [ht]

theorem ids_setThread_eq (g : ThreadGraph) (u : Thread)
    (hm : u.id = g.mainThread.id) :
    ((g.setThread u).threads.map (fun t => t.id)) =
      (g.threads.map (fun t => t.id)) := by
  unfold ThreadGraph.setThread ThreadGraph.threads
  rw [if_pos hm]
  simp [hm]

theorem mem_setThread (g : ThreadGraph) (u t : Thread)
    (h : t ∈ (g.setThread u).threads) : t = u ∨ t ∈ g.threads := by
  unfold ThreadGraph.setThread ThreadGraph.threads at *
  by_cases hm : u.id = g.mainThread.id
  · rw [if_pos hm] at h
    simp only [List.mem_cons] at h
    rcases h with h | h
    · left; exact h
    · right; exact List.mem_cons_of_mem _ h
  · rw [if_neg hm] at h
    simp only [List.mem_cons] at h
    rcases h with h | h
    · right; rw [h]; exact List.mem_cons_self _ _
    · rw [List.mem_map] at h
      obtain ⟨x, hx, hxe⟩ := h
      by_cases hxu : x.id = u.id
      · rw [if_pos hxu] at hxe; left; exact hxe.symm
      · rw [if_neg hxu] at hxe; right; rw [← hxe]
        exact List.mem_cons_of_mem _ hx

theorem mem_detours_setThread (g : ThreadGraph) (u t : Thread)
    (h : t ∈ (g.setThread u).detours) : t = u ∨ t ∈ g.detours := by
  unfold ThreadGraph.setThread at h
  by_cases hm : u.id = g.mainThread.id
  · rw [if_pos hm] at h
    right; exact h
  · rw [if_neg hm] at h
    simp only [List.mem_map] at h
    obtain ⟨x, hx, hxe⟩ := h
    by_cases hxu : x.id = u.id
    · rw [if_pos hxu] at hxe; left; exact hxe.symm
    · rw [if_neg hxu] at hxe; right; rw [← hxe]; exact hx

theorem mem_detours_setThread_ne (g : ThreadGraph) (u t : Thread)
    (hm : u.id ≠ g.mainThread.id) (h : t ∈ (g.setThread u).detours) :
    t = u ∨ (t ∈ g.detours ∧ t.id ≠ u.id) := by
  unfold ThreadGraph.setThread at h
  rw [if_neg hm] at h
  simp only [List.mem_map] at h
  obtain ⟨x, hx, hxe⟩ := h
  by_cases hxu : x.id = u.id
  · rw [if_pos hxu] at hxe; left; exact hxe.symm
  · rw [if_neg hxu] at hxe; right; rw [← hxe]; exact ⟨hx, hxu⟩

theorem mainThread_setThread (g : ThreadGraph) (u : Thread) :
    ((g.setThread u).mainThread = u ∧ u.id = g.mainThread.id) ∨
      ((g.setThread u).mainThread = g.mainThread ∧ u.id ≠ g.mainThread.id) := by
  unfold ThreadGraph.setThread
  by_cases hm : u.id = g.mainThread.id
  · rw [if_pos hm]; left; exact ⟨rfl, hm⟩
  · rw [if_neg hm]; right; exact ⟨rfl, hm⟩

theorem cursor_setThread (g : ThreadGraph) (u : Thread) :
    (g.setThread u).cursor = g.cursor := by
  unfold ThreadGraph.setThread
  by_cases hm : u.id = g.mainThread.id
  · rw [if_pos hm]
  · rw [if_neg hm]

theorem detours_setThread_main (g : ThreadGraph) (u : Thread)
    (hm : u.id = g.mainThread.id) : (g.setThread u).detours = g.detours := by
  unfold ThreadGraph.setThread
  rw [if_pos hm]

/-- Preservation of the origin chain: when every thread of smaller id is
looked up identically and the head keeps its origin, the chain stays
intact. -/
theorem ChainOk.preserve (g g2 : ThreadGraph) (tid : Nat)
    (hc : ChainOk g tid)
    (hlow : ∀ u, u < tid → g2.findThread u = g.findThread u)
    (hhead : ∀ t, g.findThread tid = some t →
      ∃ t2, g2.findThread tid = some t2 ∧ t2.origin = t.origin) :
    ChainOk g2 tid := by
  induction hc with
  | root tid t hf ho =>
    obtain ⟨t2, hf2, ho2⟩ := hhead t hf
    exact ChainOk.root tid t2 hf2 (ho2.trans ho)
  | step tid t o pt hf ho hlt hfp hpos hst _ ih =>
    obtain ⟨t2, hf2, ho2⟩ := hhead t hf
    have hfp2 : g2.findThread o.threadId = some pt := by
      rw [hlow o.threadId hlt]; exact hfp
    refine ChainOk.step tid t2 o pt hf2 (ho2.trans ho) hlt hfp2 hpos hst ?_
    refine ih (fun u hu => hlow u (hu.trans hlt)) ?_
    intro t3 hf3
    exact ⟨t3, by rw [hlow o.threadId hlt]; exact hf3, rfl⟩

/-! ## Characterizations of the successful operations -/

theorem advance_ok (gen : Gen) (g g2 : ThreadGraph) (s : Slide)
    (h : g.advance gen = Except.ok (g2, s)) :
    ∃ t, g.findThread g.cursor.threadId = some t ∧
      ((t.slides[g.cursor.position + 1]? = some s ∧
        g2 = { g with cursor := { threadId := g.cursor.threadId,
                                  position := g.cursor.position + 1 } }) ∨
       (t.slides[g.cursor.position + 1]? = none ∧
        ∃ out, gen (g.advanceRequest t.kind) = some out ∧
          s = mkSlide g.nextSlideId t.id t.slides.length out "advance" ∧
          g2 = { g.setThread (t.appendSlide s) with
                 cursor := { threadId := g.cursor.threadId,
                             position := g.cursor.position + 1 },
                 nextSlideId := g.nextSlideId + 1 })) := by
  unfold ThreadGraph.advance at h
  split at h
  · exact absurd h (by simp)
  · rename_i t hf
    split at h
    · rename_i s0 hc
      simp only [Except.ok.injEq, Prod.mk.injEq] at h
      obtain ⟨h1, h2⟩ := h
      subst h1; subst h2
      exact ⟨t, hf, Or.inl ⟨hc, rfl⟩⟩
    · rename_i hc
      split at h
      · exact absurd h (by simp)
      · rename_i out hg
        simp only [Except.ok.injEq, Prod.mk.injEq] at h
        obtain ⟨h1, h2⟩ := h
        subst h1; subst h2
        exact ⟨t, hf, Or.inr ⟨hc, out, hg, rfl, rfl⟩⟩

theorem goBack_ok (g g2 : ThreadGraph) (s : Slide)
    (h : g.goBack = Except.ok (g2, s)) :
    ∃ t p, g.findThread g.cursor.threadId = some t ∧
      g.cursor.position = p + 1 ∧ t.slides[p]? = some s ∧
      g2 = { g with cursor := { threadId := g.cursor.threadId, position := p } } := by
  unfold ThreadGraph.goBack at h
  split at h
  · exact absurd h (by simp)
  · rename_i t hf
    split at h
    · exact absurd h (by simp)
    · rename_i p hp
      split at h
      · exact absurd h (by simp)
      · rename_i s0 hc
        simp only [Except.ok.injEq, Prod.mk.injEq] at h
        obtain ⟨h1, h2⟩ := h
        subst h1; subst h2
        exact ⟨t, p, hf, hp, hc, rfl⟩

theorem branch_ok (gen : Gen) (g : ThreadGraph) (c : String)
    (g2 : ThreadGraph) (s : Slide)
    (h : g.branch gen c = Except.ok (g2, s)) :
    ∃ t out, g.findThread g.cursor.threadId = some t ∧
      gen (g.branchRequest c) = some out ∧
      s = mkSlide g.nextSlideId g.nextThreadId 0 out "branch" ∧
      g2 = { g.setThread { t with status := ThreadStatus.suspended } with
             detours :=
               (g.setThread { t with status := ThreadStatus.suspended }).detours ++
                 [{ id := g.nextThreadId, kind := ThreadKind.detour,
                    slides := [s],
                    origin := some { threadId := g.cursor.threadId,
                                     position := g.cursor.position },
                    status := ThreadStatus.active }],
             cursor := { threadId := g.nextThreadId, position := 0 },
             nextThreadId := g.nextThreadId + 1,
             nextSlideId := g.nextSlideId + 1 } := by
  unfold ThreadGraph.branch at h
  split at h
  · exact absurd h (by simp)
  · rename_i t hf
    split at h
    · exact absurd h (by simp)
    · rename_i out hg
      simp only [Except.ok.injEq, Prod.mk.injEq] at h
      obtain ⟨h1, h2⟩ := h
      subst h1; subst h2
      exact ⟨t, out, hf, hg, rfl, rfl⟩

theorem returnToMain_ok (gen : Gen) (g g2 : ThreadGraph) (s : Slide)
    (h : g.returnToMain gen = Except.ok (g2, s)) :
    ∃ t o pt, g.findThread g.cursor.threadId = some t ∧
      t.origin = some o ∧ g.findThread o.threadId = some pt ∧
      ((pt.slides[o.position + 1]? = some s ∧
        g2 = { (g.setThread { t with status := ThreadStatus.suspended }).setThread
                 { pt with status := ThreadStatus.active } with
               cursor := { threadId := o.threadId,
                           position := o.position + 1 } }) ∨
       (pt.slides[o.position + 1]? = none ∧
        ∃ out, gen (g.resumeRequest pt.kind) = some out ∧
          s = mkSlide g.nextSlideId pt.id pt.slides.length out "resume" ∧
          g2 = { (g.setThread { t with status := ThreadStatus.suspended }).setThread
                   (Thread.appendSlide { pt with status := ThreadStatus.active } s) with
                 cursor := { threadId := o.threadId,
                             position := o.position + 1 },
                 nextSlideId := g.nextSlideId + 1 })) := by
  unfold ThreadGraph.returnToMain at h
  split at h
  · exact absurd h (by simp)
  · rename_i t hf
    split at h
    · exact absurd h (by simp)
    · rename_i o ho
      split at h
      · exact absurd h (by simp)
      · rename_i pt hfp
        split at h
        · rename_i s0 hc
          simp only [Except.ok.injEq, Prod.mk.injEq] at h
          obtain ⟨h1, h2⟩ := h
          subst h1; subst h2
          exact ⟨t, o, pt, hf, ho, hfp, Or.inl ⟨hc, rfl⟩⟩
        · rename_i hc
          split at h
          · exact absurd h (by simp)
          · rename_i out hg
            simp only [Except.ok.injEq, Prod.mk.injEq] at h
            obtain ⟨h1, h2⟩ := h
            subst h1; subst h2
            exact ⟨t, o, pt, hf, ho, hfp, Or.inr ⟨hc, out, hg, rfl, rfl⟩⟩

theorem regenerateCurrent_ok (gen : Gen) (g : ThreadGraph) (hint : String)
    (g2 : ThreadGraph) (s : Slide)
    (h : g.regenerateCurrent gen hint = Except.ok (g2, s)) :
    ∃ t out, g.findThread g.cursor.threadId = some t ∧
      gen (g.regenRequest t.kind hint) = some out ∧
      g.cursor.position < t.slides.length ∧
      s = mkSlide g.nextSlideId t.id g.cursor.position out "regenerate" ∧
      g2 = { g.setThread
               { t with slides := t.slides.take g.cursor.position ++ [s] } with
             nextSlideId := g.nextSlideId + 1 } := by
  unfold ThreadGraph.regenerateCurrent at h
  split at h
  · exact absurd h (by simp)
  · rename_i t hf
    split at h
    · exact absurd h (by simp)
    · rename_i out hg
      unfold Thread.replaceAt at h
      by_cases hp : g.cursor.position < t.slides.length
      · rw [if_pos hp] at h
        split at h
        · exact absurd h (by simp)
        · rename_i t2 s2 hrep
          simp only [Except.ok.injEq, Prod.mk.injEq] at *
          obtain ⟨h1, h2⟩ := h
          subst h1; subst h2
          obtain ⟨h3, h4⟩ := hrep
          subst h3; subst h4
          exact ⟨t, out, hf, hg, hp, rfl, rfl⟩
      · rw [if_neg hp] at h
        split at h
        · exact absurd h (by simp)
        · rename_i t2 s2 hrep
          exact absurd hrep (by simp)

theorem extendSlides_props (gen : Gen) (req : GenRequest) :
    ∀ (n : Nat) (t : Thread) (sid : Nat) (t2 : Thread),
    Thread.extendSlides gen req t sid n = some t2 →
    t2.id = t.id ∧ t2.kind = t.kind ∧ t2.origin = t.origin ∧
      t.slides.length ≤ t2.slides.length ∧
      (t2.status = t.status ∨ t2.status = ThreadStatus.active) := by
  intro n
  induction n with
  | zero =>
    intro t sid t2 h
    unfold Thread.extendSlides at h
    cases h
    exact ⟨rfl, rfl, rfl, le_refl _, Or.inl rfl⟩
  | succ n ih =>
    intro t sid t2 h
    unfold Thread.extendSlides at h
    cases hg : gen req with
    | none => rw [hg] at h; exact absurd h (by simp)
    | some out =>
      rw [hg] at h
      have hr := ih _ _ _ h
      unfold Thread.appendSlide at hr
      refine ⟨hr.1, hr.2.1, hr.2.2.1, ?_, ?_⟩
      · refine le_trans ?_ hr.2.2.2.1
        simp
      · rcases hr.2.2.2.2 with h1 | h1
        · right; exact h1
        · right; exact h1

theorem extend_ok (gen : Gen) (g : ThreadGraph) (n : Nat)
    (g2 : ThreadGraph) (s : Slide)
    (h : g.extend gen n = Except.ok (g2, s)) :
    ∃ t t2, g.findThread g.cursor.threadId = some t ∧
      t.slides[g.cursor.position]? = some s ∧
      Thread.extendSlides gen (g.extendRequest t.kind) t g.nextSlideId n = some t2 ∧
      g2 = { g.setThread t2 with nextSlideId := g.nextSlideId + n } := by
  unfold ThreadGraph.extend at h
  split at h
  · exact absurd h (by simp)
  · rename_i t hf
    split at h
    · exact absurd h (by simp)
    · rename_i cur hc
      split at h
      · exact absurd h (by simp)
      · rename_i t2 he
        simp only [Except.ok.injEq, Prod.mk.injEq] at h
        obtain ⟨h1, h2⟩ := h
        subst h1; subst h2
        exact ⟨t, t2, hf, hc, he, rfl⟩

/-! ## Consequences of well-formedness -/

theorem find_of_mem_nodup (l : List Thread) (x : Thread)
    (hnd : (l.map (fun t => t.id)).Nodup) (hx : x ∈ l) :
    l.find? (fun t => t.id = x.id) = some x := by
  induction l with
  | nil => exact absurd hx (List.not_mem_nil x)
  | cons a as ih =>
    simp only [List.map_cons, List.nodup_cons] at hnd
    rcases List.mem_cons.mp hx with h | h
    · subst h
      exact List.find?_cons_of_pos _ (by simp)
    · have hne : a.id ≠ x.id := by
        intro he
        exact hnd.1 (he ▸ List.mem_map_of_mem (fun t => t.id) h)
      rw [List.find?_cons_of_neg _ (by simp [hne])]
      exact ih hnd.2 h

/-- With distinct ids, every thread of the graph is found under its own
id. -/
theorem mem_found (g : ThreadGraph)
    (hnd : (g.threads.map (fun t => t.id)).Nodup) (t : Thread)
    (ht : t ∈ g.threads) : g.findThread t.id = some t := by
  unfold ThreadGraph.findThread
  unfold ThreadGraph.threads at ht hnd
  rcases List.mem_cons.mp ht with h | h
  · subst h
    rw [if_pos rfl]
  · simp only [List.map_cons, List.nodup_cons] at hnd
    have hne : t.id ≠ g.mainThread.id := by
      intro he
      exact hnd.1 (he ▸ List.mem_map_of_mem (fun t => t.id) h)
    rw [if_neg hne]
    exact find_of_mem_nodup g.detours t hnd.2 h

theorem id_lt_next_of_mem (g : ThreadGraph) (hw : WF g) (t : Thread)
    (ht : t ∈ g.threads) : t.id < g.nextThreadId := by
  unfold ThreadGraph.threads at ht
  rcases List.mem_cons.mp ht with h | h
  · subst h
    rw [hw.main_id]
    exact lt_of_lt_of_le Nat.zero_lt_one hw.next_pos
  · exact hw.detour_id_lt t h

theorem cursorTid_lt_next (g : ThreadGraph) (hw : WF g) :
    g.cursor.threadId < g.nextThreadId := by
  obtain ⟨t, hf, _⟩ := hw.cursor_found
  obtain ⟨hid, hmem⟩ := findThread_some g _ t hf
  exact hid ▸ id_lt_next_of_mem g hw t hmem

/-- `findThread` depends only on the main thread and the detour map. -/
theorem findThread_congr (g h : ThreadGraph)
    (hm : h.mainThread = g.mainThread) (hd : h.detours = g.detours)
    (tid : Nat) : h.findThread tid = g.findThread tid := by
  unfold ThreadGraph.findThread
  rw [hm, hd]

theorem filter_active_length (c : Nat) (l : List Thread)
    (hnd : (l.map (fun t => t.id)).Nodup)
    (h : ∀ t ∈ l, t.status = ThreadStatus.active → t.id = c) :
    (l.filter (fun t => t.status == ThreadStatus.active)).length ≤ 1 := by
  induction l with
  | nil => exact Nat.zero_le 1
  | cons x xs ih =>
    simp only [List.map_cons, List.nodup_cons] at hnd
    by_cases hx : x.status = ThreadStatus.active
    · have hxc : x.id = c := h x (List.mem_cons_self x xs) hx
      have hrest : xs.filter (fun t => t.status == ThreadStatus.active) = [] := by
        rw [List.filter_eq_nil_iff]
        intro t ht
        simp only [beq_iff_eq]
        intro hact
        have : t.id = c := h t (List.mem_cons_of_mem x ht) hact
        exact hnd.1 (hxc ▸ this ▸ List.mem_map_of_mem (fun t => t.id) ht)
      rw [List.filter_cons_of_pos (by simp [hx]), hrest]
      simp
    · rw [List.filter_cons_of_neg (by simp [hx])]
      exact ih hnd.2 (fun t ht => h t (List.mem_cons_of_mem x ht))

/-- A well-formed graph satisfies the spec's cursor-validity invariant. -/
theorem wf_cursorValid (g : ThreadGraph) (hw : WF g) : CursorValid g := by
  obtain ⟨t, hf, hpos⟩ := hw.cursor_found
  obtain ⟨hid, hmem⟩ := findThread_some g _ t hf
  refine ⟨?_, ⟨t, hf, hpos⟩, ?_⟩
  · unfold ThreadGraph.threads at hmem
    rcases List.mem_cons.mp hmem with h | h
    · left; rw [← hid, h]
    · right
      refine ⟨t, h, hid, ?_⟩
      have := (hw.active_iff _ t hf).mpr rfl
      rw [this]
      intro hcon
      exact absurd hcon (by simp)
  · unfold ThreadGraph.activeCount
    refine filter_active_length g.cursor.threadId g.threads hw.ids_nodup ?_
    intro u hu hact
    have hfu := mem_found g hw.ids_nodup u hu
    exact (hw.active_iff u.id u hfu).mp hact

/-! ## Preservation of well-formedness -/

/-- Moving only the cursor position, to a valid index of the unchanged
cursor thread, preserves well-formedness. -/
theorem wf_update_pos (g : ThreadGraph) (hw : WF g) (t : Thread)
    (hf : g.findThread g.cursor.threadId = some t)
    (p : Nat) (hp : p < t.slides.length) :
    WF { g with cursor := { threadId := g.cursor.threadId, position := p } } := by
  refine ⟨hw.main_id, hw.main_kind, hw.main_origin, hw.next_pos,
    hw.detour_id_pos, hw.detour_id_lt, hw.detour_kind, hw.detour_origin,
    hw.ids_nodup, ⟨t, hf, hp⟩, ?_, ?_⟩
  · intro tid u hfu
    exact hw.active_iff tid u hfu
  · exact ChainOk.preserve g _ g.cursor.threadId hw.chain (fun u _ => rfl)
      (fun t0 hf0 => ⟨t0, hf0, rfl⟩)

/-- Storing back a modified cursor thread — same id, kind and origin,
made active — and pointing the cursor at a valid position of it preserves
well-formedness, as long as the thread counter is unchanged. -/
theorem wf_update_master (g : ThreadGraph) (hw : WF g) (u t : Thread)
    (hf : g.findThread g.cursor.threadId = some t)
    (hid : u.id = t.id) (hkind : u.kind = t.kind) (horig : u.origin = t.origin)
    (hstat : u.status = ThreadStatus.active)
    (p : Nat) (hp : p < u.slides.length)
    (g2 : ThreadGraph)
    (hmain : g2.mainThread = (g.setThread u).mainThread)
    (hdet : g2.detours = (g.setThread u).detours)
    (hcur : g2.cursor = { threadId := g.cursor.threadId, position := p })
    (hnext : g2.nextThreadId = g.nextThreadId) :
    WF g2 := by
  have htid : t.id = g.cursor.threadId := (findThread_some g _ t hf).1
  have htmem : t ∈ g.threads := (findThread_some g _ t hf).2
  have huid : u.id = g.cursor.threadId := hid.trans htid
  have hfind : ∀ tid, g2.findThread tid = (g.setThread u).findThread tid :=
    fun tid => findThread_congr (g.setThread u) g2 hmain hdet tid
  have hfu : g.findThread u.id = some t := by rw [huid]; exact hf
  have hself : (g.setThread u).findThread u.id = some u :=
    findThread_setThread_self g u t hfu
  have hmaincase : u.id = g.mainThread.id → t = g.mainThread := by
    intro hm
    have hcm : g.cursor.threadId = g.mainThread.id := huid ▸ hm
    have hfm : g.findThread g.cursor.threadId = some g.mainThread := by
      unfold ThreadGraph.findThread
      rw [if_pos hcm]
    rw [hf] at hfm
    exact Option.some.inj hfm
  have htdet : u.id ≠ g.mainThread.id → t ∈ g.detours := by
    intro hm
    unfold ThreadGraph.threads at htmem
    rcases List.mem_cons.mp htmem with h | h
    · exact absurd (hid.trans (h ▸ rfl)) hm
    · exact h
  have hg2tid : g2.cursor.threadId = g.cursor.threadId := by rw [hcur]
  have hg2pos : g2.cursor.position = p := by rw [hcur]
  constructor
  case main_id =>
    rcases mainThread_setThread g u with ⟨hm1, hm2⟩ | ⟨hm1, hm2⟩
    · rw [hmain, hm1, hm2]
      exact hw.main_id
    · rw [hmain, hm1]
      exact hw.main_id
  case main_kind =>
    rcases mainThread_setThread g u with ⟨hm1, hm2⟩ | ⟨hm1, hm2⟩
    · rw [hmain, hm1, hkind, hmaincase hm2]
      exact hw.main_kind
    · rw [hmain, hm1]
      exact hw.main_kind
  case main_origin =>
    rcases mainThread_setThread g u with ⟨hm1, hm2⟩ | ⟨hm1, hm2⟩
    · rw [hmain, hm1, horig, hmaincase hm2]
      exact hw.main_origin
    · rw [hmain, hm1]
      exact hw.main_origin
  case next_pos =>
    rw [hnext]
    exact hw.next_pos
  case detour_id_pos =>
    intro d hd
    rw [hdet] at hd
    by_cases hm : u.id = g.mainThread.id
    · rw [detours_setThread_main g u hm] at hd
      exact hw.detour_id_pos d hd
    · rcases mem_detours_setThread_ne g u d hm hd with h | ⟨h, _⟩
      · subst h
        rw [hid]
        exact hw.detour_id_pos t (htdet hm)
      · exact hw.detour_id_pos d h
  case detour_id_lt =>
    intro d hd
    rw [hnext, hdet] at *
    by_cases hm : u.id = g.mainThread.id
    · rw [detours_setThread_main g u hm] at hd
      exact hw.detour_id_lt d hd
    · rcases mem_detours_setThread_ne g u d hm hd with h | ⟨h, _⟩
      · subst h
        rw [hid]
        exact hw.detour_id_lt t (htdet hm)
      · exact hw.detour_id_lt d h
  case detour_kind =>
    intro d hd
    rw [hdet] at hd
    by_cases hm : u.id = g.mainThread.id
    · rw [detours_setThread_main g u hm] at hd
      exact hw.detour_kind d hd
    · rcases mem_detours_setThread_ne g u d hm hd with h | ⟨h, _⟩
      · subst h
        rw [hkind]
        exact hw.detour_kind t (htdet hm)
      · exact hw.detour_kind d h
  case detour_origin =>
    intro d hd
    rw [hdet] at hd
    by_cases hm : u.id = g.mainThread.id
    · rw [detours_setThread_main g u hm] at hd
      exact hw.detour_origin d hd
    · rcases mem_detours_setThread_ne g u d hm hd with h | ⟨h, _⟩
      · subst h
        rw [horig]
        exact hw.detour_origin t (htdet hm)
      · exact hw.detour_origin d h
  case ids_nodup =>
    have hth : g2.threads = (g.setThread u).threads := by
      unfold ThreadGraph.threads
      rw [hmain, hdet]
    rw [hth]
    rcases ids_setThread g u with he | hm
    · rw [he]
      exact hw.ids_nodup
    · rw [ids_setThread_eq g u hm]
      exact hw.ids_nodup
  case cursor_found =>
    refine ⟨u, ?_, ?_⟩
    · rw [hg2tid, hfind, ← huid]
      exact hself
    · rw [hg2pos]
      exact hp
  case active_iff =>
    intro tid v hfv
    rw [hfind] at hfv
    rw [hg2tid]
    by_cases ht2 : tid = u.id
    · subst ht2
      rw [hself] at hfv
      have : v = u := (Option.some.inj hfv).symm
      subst this
      simp [hstat, huid]
    · rw [findThread_setThread_ne g u tid ht2] at hfv
      have hold := hw.active_iff tid v hfv
      rw [hold]
  case chain =>
    rw [hg2tid]
    refine ChainOk.preserve g g2 g.cursor.threadId hw.chain ?_ ?_
    · intro v hv
      rw [hfind]
      exact findThread_setThread_ne g u v (fun he => by
        rw [he, huid] at hv
        exact lt_irrefl _ hv)
    · intro t0 hf0
      rw [hf] at hf0
      have : t = t0 := Option.some.inj hf0
      subst this
      refine ⟨u, ?_, horig⟩
      rw [hfind, ← huid]
      exact hself

theorem nextThreadId_setThread (g : ThreadGraph) (u : Thread) :
    (g.setThread u).nextThreadId = g.nextThreadId := by
  unfold ThreadGraph.setThread
  by_cases hm : u.id = g.mainThread.id
  · rw [if_pos hm]
  · rw [if_neg hm]

theorem cursor_pos_lt (g : ThreadGraph) (hw : WF g) (t : Thread)
    (hf : g.findThread g.cursor.threadId = some t) :
    g.cursor.position < t.slides.length := by
  obtain ⟨t0, hf0, hp0⟩ := hw.cursor_found
  rw [hf] at hf0
  cases hf0
  exact hp0

theorem cursor_thread_active (g : ThreadGraph) (hw : WF g) (t : Thread)
    (hf : g.findThread g.cursor.threadId = some t) :
    t.status = ThreadStatus.active :=
  (hw.active_iff _ t hf).mpr rfl

theorem wf_start (gen : Gen) (sid topic : String) (g : ThreadGraph) (s : Slide)
    (h : ThreadGraph.start gen sid topic = Except.ok (g, s)) : WF g := by
  unfold ThreadGraph.start at h
  split at h
  · exact absurd h (by simp)
  · rename_i out hg
    simp only [Except.ok.injEq, Prod.mk.injEq] at h
    obtain ⟨h1, h2⟩ := h
    subst h1
    refine ⟨rfl, rfl, rfl, le_refl 1, ?_, ?_, ?_, ?_, ?_, ?_, ?_, ?_⟩
    · intro d hd; exact absurd hd (List.not_mem_nil d)
    · intro d hd; exact absurd hd (List.not_mem_nil d)
    · intro d hd; exact absurd hd (List.not_mem_nil d)
    · intro d hd; exact absurd hd (List.not_mem_nil d)
    · simp [ThreadGraph.threads]
    · exact ⟨_, rfl, by simp⟩
    · intro tid t hft
      unfold ThreadGraph.findThread at hft
      by_cases ht : tid = 0
      · subst ht
        rw [if_pos rfl] at hft
        cases hft
        simp
      · rw [if_neg ht] at hft
        exact absurd hft (by simp)
    · exact ChainOk.root 0 _ rfl rfl

theorem wf_advance (gen : Gen) (g g2 : ThreadGraph) (s : Slide)
    (hw : WF g) (h : g.advance gen = Except.ok (g2, s)) : WF g2 := by
  obtain ⟨t, hf, hcase⟩ := advance_ok gen g g2 s h
  rcases hcase with ⟨hc, hg2⟩ | ⟨hc, out, hgen, hs, hg2⟩
  · subst hg2
    have hlt : g.cursor.position + 1 < t.slides.length :=
      (List.getElem?_eq_some_iff.mp hc).1
    exact wf_update_pos g hw t hf _ hlt
  · subst hs
    subst hg2
    have hpos := cursor_pos_lt g hw t hf
    refine wf_update_master g hw (t.appendSlide _) t hf rfl rfl rfl rfl
      (g.cursor.position + 1) ?_ _ rfl rfl rfl (nextThreadId_setThread g _)
    unfold Thread.appendSlide
    simpa using Nat.succ_lt_succ hpos

theorem wf_goBack (g g2 : ThreadGraph) (s : Slide)
    (hw : WF g) (h : g.goBack = Except.ok (g2, s)) : WF g2 := by
  obtain ⟨t, p, hf, hpp, hc, hg2⟩ := goBack_ok g g2 s h
  subst hg2
  have hlt : p < t.slides.length := (List.getElem?_eq_some_iff.mp hc).1
  exact wf_update_pos g hw t hf p hlt

theorem wf_regenerateCurrent (gen : Gen) (g : ThreadGraph) (hint : String)
    (g2 : ThreadGraph) (s : Slide) (hw : WF g)
    (h : g.regenerateCurrent gen hint = Except.ok (g2, s)) : WF g2 := by
  obtain ⟨t, out, hf, hgen, hp, hs, hg2⟩ := regenerateCurrent_ok gen g hint g2 s h
  subst hs
  subst hg2
  have hact := cursor_thread_active g hw t hf
  refine wf_update_master g hw
    { t with slides := t.slides.take g.cursor.position ++ [_] } t hf rfl rfl rfl
    hact g.cursor.position ?_ _ rfl rfl ?_ (nextThreadId_setThread g _)
  · simp [Nat.min_eq_left (le_of_lt hp)]
  · show (g.setThread _).cursor = _
    rw [cursor_setThread]

theorem wf_extend (gen : Gen) (g : ThreadGraph) (n : Nat)
    (g2 : ThreadGraph) (s : Slide) (hw : WF g)
    (h : g.extend gen n = Except.ok (g2, s)) : WF g2 := by
  obtain ⟨t, t2, hf, hc, he, hg2⟩ := extend_ok gen g n g2 s h
  subst hg2
  have hact := cursor_thread_active g hw t hf
  obtain ⟨hid, hkind, horig, hlen, hstat⟩ :=
    extendSlides_props gen (g.extendRequest t.kind) n t g.nextSlideId t2 he
  have hcl : g.cursor.position < t.slides.length :=
    (List.getElem?_eq_some_iff.mp hc).1
  refine wf_update_master g hw t2 t hf hid hkind horig ?_
    g.cursor.position (lt_of_lt_of_le hcl hlen) _ rfl rfl ?_
    (nextThreadId_setThread g _)
  · rcases hstat with h1 | h1
    · rw [h1]; exact hact
    · exact h1
  · show (g.setThread _).cursor = _
    rw [cursor_setThread]

theorem nodup_append_single (l : List Nat) (a : Nat) (hnd : l.Nodup)
    (ha : a ∉ l) : (l ++ [a]).Nodup := by
  simp [List.nodup_append, hnd, ha]

theorem findThread_append_detour (g : ThreadGraph) (d : Thread)
    (g2 : ThreadGraph) (hmain : g2.mainThread = g.mainThread)
    (hdet : g2.detours = g.detours ++ [d]) (tid : Nat) (hne : tid ≠ d.id) :
    g2.findThread tid = g.findThread tid := by
  unfold ThreadGraph.findThread
  rw [hmain, hdet, find_append_ne g.detours d tid hne]

theorem findThread_append_detour_self (g : ThreadGraph) (d : Thread)
    (g2 : ThreadGraph) (hmain : g2.mainThread = g.mainThread)
    (hdet : g2.detours = g.detours ++ [d])
    (hm : g.mainThread.id ≠ d.id) (hall : ∀ x ∈ g.detours, x.id ≠ d.id) :
    g2.findThread d.id = some d := by
  unfold ThreadGraph.findThread
  rw [hmain, hdet, if_neg (fun he => hm he.symm)]
  exact find_append_last g.detours d hall

/-- Inversion of the origin chain at a cursor thread that has an origin:
the recorded origin is below the cursor id, resolves to a thread with the
origin position in range, and the chain continues from it. -/
theorem chain_step_facts (g : ThreadGraph) (hw : WF g) (t : Thread)
    (o : Origin) (hf : g.findThread g.cursor.threadId = some t)
    (ho : t.origin = some o) :
    o.threadId < g.cursor.threadId ∧
      ∃ pt, g.findThread o.threadId = some pt ∧
        o.position < pt.slides.length ∧ pt.status ≠ ThreadStatus.archived ∧
        ChainOk g o.threadId := by
  cases hw.chain with
  | root tid0 t0 hf0 ho0 =>
    rw [hf] at hf0
    cases hf0
    rw [ho] at ho0
    exact absurd ho0 (by simp)
  | step tid0 t0 o0 pt0 hf0 ho0 hlt0 hfp0 hpos0 hst0 hch0 =>
    rw [hf] at hf0
    cases hf0
    rw [ho] at ho0
    cases ho0
    exact ⟨hlt0, pt0, hfp0, hpos0, hst0, hch0⟩

/-- The cursor thread cannot be the main thread when it has an origin. -/
theorem cursor_not_main_of_origin (g : ThreadGraph) (hw : WF g) (t : Thread)
    (o : Origin) (hf : g.findThread g.cursor.threadId = some t)
    (ho : t.origin = some o) : t.id ≠ g.mainThread.id := by
  intro hm
  have htid : t.id = g.cursor.threadId := (findThread_some g _ t hf).1
  have hcm : g.cursor.threadId = g.mainThread.id := htid ▸ hm
  have hfm : g.findThread g.cursor.threadId = some g.mainThread := by
    unfold ThreadGraph.findThread
    rw [if_pos hcm]
  rw [hf] at hfm
  cases hfm
  rw [hw.main_origin] at ho
  exact absurd ho (by simp)

/-- Master preservation lemma for `returnToMain`: suspending the detour,
storing back the reactivated origin thread and moving the cursor to
origin.position + 1 preserves well-formedness. -/
theorem wf_return_master (g : ThreadGraph) (hw : WF g) (t : Thread)
    (o : Origin) (pt ptA : Thread)
    (hf : g.findThread g.cursor.threadId = some t)
    (ho : t.origin = some o)
    (hfp : g.findThread o.threadId = some pt)
    (hptA_id : ptA.id = pt.id) (hptA_kind : ptA.kind = pt.kind)
    (hptA_orig : ptA.origin = pt.origin)
    (hptA_stat : ptA.status = ThreadStatus.active)
    (hplen : o.position + 1 < ptA.slides.length)
    (g2 : ThreadGraph)
    (hmain : g2.mainThread =
      ((g.setThread { t with status := ThreadStatus.suspended }).setThread ptA).mainThread)
    (hdet : g2.detours =
      ((g.setThread { t with status := ThreadStatus.suspended }).setThread ptA).detours)
    (hcur : g2.cursor = { threadId := o.threadId, position := o.position + 1 })
    (hnext : g2.nextThreadId = g.nextThreadId) :
    WF g2 := by
  have htid : t.id = g.cursor.threadId := (findThread_some g _ t hf).1
  have htmem : t ∈ g.threads := (findThread_some g _ t hf).2
  have hptid : pt.id = o.threadId := (findThread_some g _ pt hfp).1
  have hptmem : pt ∈ g.threads := (findThread_some g _ pt hfp).2
  have htnm : t.id ≠ g.mainThread.id := cursor_not_main_of_origin g hw t o hf ho
  obtain ⟨holt, pt0, hfp0, hpos, hst, hch⟩ := chain_step_facts g hw t o hf ho
  rw [hfp] at hfp0
  cases hfp0
  have hone : o.threadId ≠ g.cursor.threadId := Nat.ne_of_lt holt
  have htdet : t ∈ g.detours := by
    unfold ThreadGraph.threads at htmem
    rcases List.mem_cons.mp htmem with h | h
    · exact absurd (by rw [h]) htnm
    · exact h
  have hG1main :
      (g.setThread { t with status := ThreadStatus.suspended }).mainThread =
        g.mainThread := by
    unfold ThreadGraph.setThread
    rw [if_neg htnm]
  have hG1find_o :
      (g.setThread { t with status := ThreadStatus.suspended }).findThread
        o.threadId = some pt := by
    rw [findThread_setThread_ne g _ o.threadId (by
      show o.threadId ≠ t.id
      rw [htid]
      exact hone)]
    exact hfp
  have hG1find_c :
      (g.setThread { t with status := ThreadStatus.suspended }).findThread
        (g.cursor.threadId) = some { t with status := ThreadStatus.suspended } := by
    have : g.findThread t.id = some t := by rw [htid]; exact hf
    have h2 := findThread_setThread_self g
      { t with status := ThreadStatus.suspended } t this
    rw [← htid]
    exact h2
  have hfinal_find : ∀ tid,
      g2.findThread tid =
        ((g.setThread { t with status := ThreadStatus.suspended }).setThread
          ptA).findThread tid :=
    fun tid => findThread_congr _ g2 hmain hdet tid
  have hfind_o : g2.findThread o.threadId = some ptA := by
    rw [hfinal_find]
    have h3 :
        (g.setThread { t with status := ThreadStatus.suspended }).findThread
          ptA.id = some pt := by
      rw [hptA_id, hptid]
      exact hG1find_o
    have h4 := findThread_setThread_self _ ptA pt h3
    rw [hptA_id, hptid] at h4
    exact h4
  have hfind_c : g2.findThread g.cursor.threadId =
      some { t with status := ThreadStatus.suspended } := by
    rw [hfinal_find]
    rw [findThread_setThread_ne _ ptA g.cursor.threadId (by
      rw [hptA_id, hptid]
      exact fun he => hone he.symm)]
    exact hG1find_c
  have hfind_other : ∀ tid, tid ≠ o.threadId → tid ≠ g.cursor.threadId →
      g2.findThread tid = g.findThread tid := by
    intro tid h1 h2
    rw [hfinal_find]
    rw [findThread_setThread_ne _ ptA tid (by rw [hptA_id, hptid]; exact h1)]
    rw [findThread_setThread_ne g _ tid (by
      show tid ≠ t.id
      rw [htid]
      exact h2)]
  have hmf : g2.mainThread.id = 0 ∧ g2.mainThread.kind = ThreadKind.main ∧
      g2.mainThread.origin = none := by
    rw [hmain]
    rcases mainThread_setThread
      (g.setThread { t with status := ThreadStatus.suspended }) ptA with
      ⟨h1, h2⟩ | ⟨h1, h2⟩
    · rw [hG1main] at h2
      have hptmain : pt = g.mainThread := by
        have hom : o.threadId = g.mainThread.id := by
          rw [← hptid, ← hptA_id]
          exact h2
        have : g.findThread o.threadId = some g.mainThread := by
          unfold ThreadGraph.findThread
          rw [if_pos hom]
        rw [hfp] at this
        exact Option.some.inj this
      rw [h1, hptA_id, hptA_kind, hptA_orig, hptmain]
      exact ⟨hw.main_id, hw.main_kind, hw.main_origin⟩
    · rw [h1, hG1main]
      exact ⟨hw.main_id, hw.main_kind, hw.main_origin⟩
  have hptdet : ptA.id ≠ g.mainThread.id → pt ∈ g.detours := by
    intro hne
    unfold ThreadGraph.threads at hptmem
    rcases List.mem_cons.mp hptmem with h | h
    · exact absurd (by rw [hptA_id, h]) hne
    · exact h
  have hmemf : ∀ d, d ∈ g2.detours →
      (d = ptA ∧ pt ∈ g.detours) ∨
      (d = { t with status := ThreadStatus.suspended }) ∨ d ∈ g.detours := by
    intro d hd
    rw [hdet] at hd
    by_cases hpm : ptA.id =
        (g.setThread { t with status := ThreadStatus.suspended }).mainThread.id
    · rw [detours_setThread_main _ ptA hpm] at hd
      rcases mem_detours_setThread_ne g
        { t with status := ThreadStatus.suspended } d htnm hd with h | ⟨h, _⟩
      · right; left; exact h
      · right; right; exact h
    · rcases mem_detours_setThread_ne _ ptA d hpm hd with h | ⟨h, _⟩
      · left
        refine ⟨h, hptdet ?_⟩
        rw [hG1main] at hpm
        exact hpm
      · rcases mem_detours_setThread_ne g
          { t with status := ThreadStatus.suspended } d htnm h with h2 | ⟨h2, _⟩
        · right; left; exact h2
        · right; right; exact h2
  have hnext2 : g2.nextThreadId = g.nextThreadId := hnext
  constructor
  case main_id => exact hmf.1
  case main_kind => exact hmf.2.1
  case main_origin => exact hmf.2.2
  case next_pos => rw [hnext2]; exact hw.next_pos
  case detour_id_pos =>
    intro d hd
    rcases hmemf d hd with ⟨h1, h2⟩ | h1 | h1
    · rw [h1, hptA_id]
      exact hw.detour_id_pos pt h2
    · rw [h1]
      exact hw.detour_id_pos t htdet
    · exact hw.detour_id_pos d h1
  case detour_id_lt =>
    intro d hd
    rw [hnext2]
    rcases hmemf d hd with ⟨h1, h2⟩ | h1 | h1
    · rw [h1, hptA_id]
      exact hw.detour_id_lt pt h2
    · rw [h1]
      exact hw.detour_id_lt t htdet
    · exact hw.detour_id_lt d h1
  case detour_kind =>
    intro d hd
    rcases hmemf d hd with ⟨h1, h2⟩ | h1 | h1
    · rw [h1, hptA_kind]
      exact hw.detour_kind pt h2
    · rw [h1]
      exact hw.detour_kind t htdet
    · exact hw.detour_kind d h1
  case detour_origin =>
    intro d hd
    rcases hmemf d hd with ⟨h1, h2⟩ | h1 | h1
    · rw [h1, hptA_orig]
      exact hw.detour_origin pt h2
    · rw [h1]
      exact hw.detour_origin t htdet
    · exact hw.detour_origin d h1
  case ids_nodup =>
    have hth : g2.threads =
        ((g.setThread { t with status := ThreadStatus.suspended }).setThread
          ptA).threads := by
      unfold ThreadGraph.threads
      rw [hmain, hdet]
    rw [hth]
    have e1 :
        (((g.setThread { t with status := ThreadStatus.suspended }).setThread
          ptA).threads.map (fun t => t.id)) =
        ((g.setThread { t with status := ThreadStatus.suspended }).threads.map
          (fun t => t.id)) := by
      rcases ids_setThread
        (g.setThread { t with status := ThreadStatus.suspended }) ptA with he | hm
      · exact he
      · exact ids_setThread_eq _ ptA hm
    have e2 :
        ((g.setThread { t with status := ThreadStatus.suspended }).threads.map
          (fun t => t.id)) = (g.threads.map (fun t => t.id)) := by
      rcases ids_setThread g { t with status := ThreadStatus.suspended } with he | hm
      · exact he
      · exact ids_setThread_eq g _ hm
    rw [e1, e2]
    exact hw.ids_nodup
  case cursor_found =>
    refine ⟨ptA, ?_, ?_⟩
    · have : g2.cursor.threadId = o.threadId := by rw [hcur]
      rw [this]
      exact hfind_o
    · have : g2.cursor.position = o.position + 1 := by rw [hcur]
      rw [this]
      exact hplen
  case active_iff =>
    intro tid v hfv
    have hctid : g2.cursor.threadId = o.threadId := by rw [hcur]
    rw [hctid]
    by_cases h1 : tid = o.threadId
    · subst h1
      rw [hfind_o] at hfv
      cases hfv
      simp [hptA_stat]
    · by_cases h2 : tid = g.cursor.threadId
      · subst h2
        rw [hfind_c] at hfv
        cases hfv
        simp [h1]
      · rw [hfind_other tid h1 h2] at hfv
        have hold := hw.active_iff tid v hfv
        rw [hold]
        simp [h1, h2]
  case chain =>
    have hctid : g2.cursor.threadId = o.threadId := by rw [hcur]
    rw [hctid]
    refine ChainOk.preserve g g2 o.threadId hch ?_ ?_
    · intro v hv
      refine hfind_other v (Nat.ne_of_lt hv) ?_
      exact Nat.ne_of_lt (lt_trans hv holt)
    · intro t0 hf0
      rw [hfp] at hf0
      cases hf0
      exact ⟨ptA, hfind_o, by rw [hptA_orig]⟩

theorem wf_returnToMain (gen : Gen) (g g2 : ThreadGraph) (s : Slide)
    (hw : WF g) (h : g.returnToMain gen = Except.ok (g2, s)) : WF g2 := by
  obtain ⟨t, o, pt, hf, ho, hfp, hcase⟩ := returnToMain_ok gen g g2 s h
  rcases hcase with ⟨hc, hg2⟩ | ⟨hc, out, hgen, hs, hg2⟩
  · subst hg2
    refine wf_return_master g hw t o pt { pt with status := ThreadStatus.active }
      hf ho hfp rfl rfl rfl rfl ?_ _ rfl rfl rfl ?_
    · exact (List.getElem?_eq_some_iff.mp hc).1
    · show ((g.setThread _).setThread _).nextThreadId = g.nextThreadId
      rw [nextThreadId_setThread, nextThreadId_setThread]
  · subst hs
    subst hg2
    obtain ⟨holt, pt0, hfp0, hpos, hst, hch⟩ := chain_step_facts g hw t o hf ho
    rw [hfp] at hfp0
    cases hfp0
    have hnn := List.getElem?_eq_none_iff.mp hc
    have hlen : pt.slides.length = o.position + 1 := by omega
    refine wf_return_master g hw t o pt
      (Thread.appendSlide { pt with status := ThreadStatus.active } _)
      hf ho hfp rfl rfl rfl rfl ?_ _ rfl rfl rfl ?_
    · simp [Thread.appendSlide, hlen]
    · show ((g.setThread _).setThread _).nextThreadId = g.nextThreadId
      rw [nextThreadId_setThread, nextThreadId_setThread]

/-- Master preservation lemma for `branch`: suspending the cursor thread,
appending the fresh one-slide detour and pointing the cursor at it
preserves well-formedness. -/
theorem wf_branch_master (g : ThreadGraph) (hw : WF g) (t : Thread)
    (sl : Slide) (hf : g.findThread g.cursor.threadId = some t)
    (g2 : ThreadGraph)
    (hmain : g2.mainThread =
      (g.setThread { t with status := ThreadStatus.suspended }).mainThread)
    (hdet : g2.detours =
      (g.setThread { t with status := ThreadStatus.suspended }).detours ++
        [{ id := g.nextThreadId, kind := ThreadKind.detour, slides := [sl],
           origin := some { threadId := g.cursor.threadId,
                            position := g.cursor.position },
           status := ThreadStatus.active }])
    (hcur : g2.cursor = { threadId := g.nextThreadId, position := 0 })
    (hnext : g2.nextThreadId = g.nextThreadId + 1) :
    WF g2 := by
  have htid : t.id = g.cursor.threadId := (findThread_some g _ t hf).1
  have htmem : t ∈ g.threads := (findThread_some g _ t hf).2
  have hclt : g.cursor.threadId < g.nextThreadId := cursorTid_lt_next g hw
  have htlt : t.id < g.nextThreadId := htid ▸ hclt
  have hmlt : g.mainThread.id ≠ g.nextThreadId := by
    rw [hw.main_id]
    have := hw.next_pos
    omega
  have hG1ids :
      ((g.setThread { t with status := ThreadStatus.suspended }).threads.map
        (fun t => t.id)) = (g.threads.map (fun t => t.id)) := by
    rcases ids_setThread g { t with status := ThreadStatus.suspended } with he | hm
    · exact he
    · exact ids_setThread_eq g _ hm
  have hG1main_id :
      (g.setThread { t with status := ThreadStatus.suspended }).mainThread.id =
        g.mainThread.id := by
    rcases mainThread_setThread g { t with status := ThreadStatus.suspended } with
      ⟨h1, h2⟩ | ⟨h1, h2⟩
    · rw [h1]
      exact h2
    · rw [h1]
  have hG1dlt : ∀ d ∈
      (g.setThread { t with status := ThreadStatus.suspended }).detours,
      d.id < g.nextThreadId := by
    intro d hd
    rcases mem_detours_setThread g { t with status := ThreadStatus.suspended } d hd
      with h1 | h1
    · rw [h1]
      exact htlt
    · exact hw.detour_id_lt d h1
  have hG1dne : ∀ d ∈
      (g.setThread { t with status := ThreadStatus.suspended }).detours,
      d.id ≠ g.nextThreadId := fun d hd => Nat.ne_of_lt (hG1dlt d hd)
  have hfind_new : g2.findThread g.nextThreadId =
      some { id := g.nextThreadId, kind := ThreadKind.detour, slides := [sl],
             origin := some { threadId := g.cursor.threadId,
                              position := g.cursor.position },
             status := ThreadStatus.active } := by
    refine findThread_append_detour_self _ _ g2 hmain hdet ?_ ?_
    · rw [hG1main_id]
      exact hmlt
    · exact hG1dne
  have hfind_ne : ∀ tid, tid ≠ g.nextThreadId →
      g2.findThread tid =
        (g.setThread { t with status := ThreadStatus.suspended }).findThread tid :=
    fun tid hne => findThread_append_detour _ _ g2 hmain hdet tid hne
  have hfind_c : g2.findThread g.cursor.threadId =
      some { t with status := ThreadStatus.suspended } := by
    rw [hfind_ne g.cursor.threadId (Nat.ne_of_lt hclt)]
    have h1 : g.findThread t.id = some t := by rw [htid]; exact hf
    have h2 := findThread_setThread_self g
      { t with status := ThreadStatus.suspended } t h1
    rw [← htid]
    exact h2
  have hfind_other : ∀ tid, tid ≠ g.nextThreadId → tid ≠ g.cursor.threadId →
      g2.findThread tid = g.findThread tid := by
    intro tid h1 h2
    rw [hfind_ne tid h1]
    exact findThread_setThread_ne g _ tid (by
      show tid ≠ t.id
      rw [htid]
      exact h2)
  have htnm_or : t = g.mainThread ∨ t ∈ g.detours := by
    unfold ThreadGraph.threads at htmem
    exact List.mem_cons.mp htmem
  have hmf : g2.mainThread.id = 0 ∧ g2.mainThread.kind = ThreadKind.main ∧
      g2.mainThread.origin = none := by
    rw [hmain]
    rcases mainThread_setThread g { t with status := ThreadStatus.suspended } with
      ⟨h1, h2⟩ | ⟨h1, h2⟩
    · have htm : t = g.mainThread := by
        have hcm : g.cursor.threadId = g.mainThread.id := htid ▸ h2
        have hfm : g.findThread g.cursor.threadId = some g.mainThread := by
          unfold ThreadGraph.findThread
          rw [if_pos hcm]
        rw [hf] at hfm
        exact Option.some.inj hfm
      rw [h1, htm]
      exact ⟨hw.main_id, hw.main_kind, hw.main_origin⟩
    · rw [h1]
      exact ⟨hw.main_id, hw.main_kind, hw.main_origin⟩
  have htdet : t.id ≠ g.mainThread.id → t ∈ g.detours := by
    intro hm
    rcases htnm_or with h | h
    · exact absurd (by rw [h]) hm
    · exact h
  have hmemf : ∀ d, d ∈ g2.detours →
      d = { id := g.nextThreadId, kind := ThreadKind.detour, slides := [sl],
            origin := some { threadId := g.cursor.threadId,
                             position := g.cursor.position },
            status := ThreadStatus.active } ∨
      (d = { t with status := ThreadStatus.suspended } ∧ t ∈ g.detours) ∨
      d ∈ g.detours := by
    intro d hd
    rw [hdet] at hd
    rcases List.mem_append.mp hd with h | h
    · by_cases hm : t.id = g.mainThread.id
      · rw [detours_setThread_main g { t with status := ThreadStatus.suspended } hm] at h
        right; right; exact h
      · rcases mem_detours_setThread_ne g
          { t with status := ThreadStatus.suspended } d hm h with h1 | ⟨h1, _⟩
        · right; left; exact ⟨h1, htdet hm⟩
        · right; right; exact h1
    · left
      simpa using h
  constructor
  case main_id => exact hmf.1
  case main_kind => exact hmf.2.1
  case main_origin => exact hmf.2.2
  case next_pos =>
    rw [hnext]
    have := hw.next_pos
    omega
  case detour_id_pos =>
    intro d hd
    rcases hmemf d hd with h1 | ⟨h1, h2⟩ | h1
    · rw [h1]
      exact hw.next_pos
    · rw [h1]
      exact hw.detour_id_pos t h2
    · exact hw.detour_id_pos d h1
  case detour_id_lt =>
    intro d hd
    rw [hnext]
    rcases hmemf d hd with h1 | ⟨h1, h2⟩ | h1
    · rw [h1]
      show g.nextThreadId < g.nextThreadId + 1
      omega
    · rw [h1]
      show t.id < g.nextThreadId + 1
      have := hw.detour_id_lt t h2
      omega
    · have := hw.detour_id_lt d h1
      omega
  case detour_kind =>
    intro d hd
    rcases hmemf d hd with h1 | ⟨h1, h2⟩ | h1
    · rw [h1]
    · rw [h1]
      exact hw.detour_kind t h2
    · exact hw.detour_kind d h1
  case detour_origin =>
    intro d hd
    rcases hmemf d hd with h1 | ⟨h1, h2⟩ | h1
    · rw [h1]
      simp
    · rw [h1]
      exact hw.detour_origin t h2
    · exact hw.detour_origin d h1
  case ids_nodup =>
    have hth : g2.threads =
        ((g.setThread { t with status := ThreadStatus.suspended }).threads ++
          [{ id := g.nextThreadId, kind := ThreadKind.detour, slides := [sl],
             origin := some { threadId := g.cursor.threadId,
                              position := g.cursor.position },
             status := ThreadStatus.active }]) := by
      unfold ThreadGraph.threads
      rw [hmain, hdet]
      rfl
    rw [hth, List.map_append, hG1ids]
    refine nodup_append_single _ _ hw.ids_nodup ?_
    intro hmem
    simp only [List.mem_map] at hmem
    obtain ⟨x, hx, hxe⟩ := hmem
    exact Nat.ne_of_lt (id_lt_next_of_mem g hw x hx) hxe
  case cursor_found =>
    refine ⟨{ id := g.nextThreadId, kind := ThreadKind.detour, slides := [sl],
              origin := some { threadId := g.cursor.threadId,
                               position := g.cursor.position },
              status := ThreadStatus.active }, ?_, ?_⟩
    · have : g2.cursor.threadId = g.nextThreadId := by rw [hcur]
      rw [this]
      exact hfind_new
    · have : g2.cursor.position = 0 := by rw [hcur]
      rw [this]
      simp
  case active_iff =>
    intro tid v hfv
    have hctid : g2.cursor.threadId = g.nextThreadId := by rw [hcur]
    rw [hctid]
    by_cases h1 : tid = g.nextThreadId
    · subst h1
      rw [hfind_new] at hfv
      cases hfv
      simp
    · by_cases h2 : tid = g.cursor.threadId
      · subst h2
        rw [hfind_c] at hfv
        cases hfv
        simp [h1]
      · rw [hfind_other tid h1 h2] at hfv
        have hold := hw.active_iff tid v hfv
        rw [hold]
        simp [h1, h2]
  case chain =>
    have hctid : g2.cursor.threadId = g.nextThreadId := by rw [hcur]
    rw [hctid]
    refine ChainOk.step g.nextThreadId _
      { threadId := g.cursor.threadId, position := g.cursor.position }
      { t with status := ThreadStatus.suspended } hfind_new rfl hclt hfind_c
      (cursor_pos_lt g hw t hf) (by simp) ?_
    refine ChainOk.preserve g g2 g.cursor.threadId hw.chain ?_ ?_
    · intro v hv
      refine hfind_other v ?_ (Nat.ne_of_lt hv)
      exact Nat.ne_of_lt (lt_trans hv hclt)
    · intro t0 hf0
      rw [hf] at hf0
      cases hf0
      exact ⟨{ t with status := ThreadStatus.suspended }, hfind_c, rfl⟩

theorem wf_branch (gen : Gen) (g : ThreadGraph) (c : String)
    (g2 : ThreadGraph) (s : Slide) (hw : WF g)
    (h : g.branch gen c = Except.ok (g2, s)) : WF g2 := by
  obtain ⟨t, out, hf, hgen, hs, hg2⟩ := branch_ok gen g c g2 s h
  subst hs
  subst hg2
  exact wf_branch_master g hw t _ hf _ rfl rfl rfl rfl

/-! ## Demonstration gateway functions and session, used by the concrete
witnesses -/

/-- A gateway that always generates. -/
def genDemo : Gen := fun _ => some { content := "generated", actions := [] }

/-- A gateway that always fails. -/
def genFailDemo : Gen := fun _ => none

/-- The slide `start` produces with `genDemo`. -/
def sDemo : Slide :=
  { id := 0, threadId := 0, position := 0, content := "generated",
    actions := [], provenance := "start" }

/-- The graph `start` produces with `genDemo`. -/
def gDemo : ThreadGraph :=
  { sessionId := "s1",
    mainThread :=
      { id := 0, kind := ThreadKind.main, slides := [sDemo], origin := none,
        status := ThreadStatus.active },
    detours := [],
    cursor := { threadId := 0, position := 0 },
    knowledgeLevel := "standard",
    nextThreadId := 1,
    nextSlideId := 1 }

/-! ## Claim theorems -/

/-- C3: for every thread and every position p that is a valid index into
its slide sequence, `replaceAt(p, ...)` leaves the thread with length
exactly p + 1 — the new slide at position p, every earlier slide kept,
every slide after position p discarded; for every out-of-range p it fails
with `InvalidPosition` (and, the embedding being functional, no changed
thread is ever produced: the caller keeps the old one). -/
theorem c3_replaceAt_truncates (t : Thread) (p sid : Nat) (out : GenOut)
    (prov : String) :
    (p < t.slides.length →
      ∃ t2 s, t.replaceAt p sid out prov = Except.ok (t2, s) ∧
        t2.slides.length = p + 1 ∧
        (∀ i, i < p → t2.slides[i]? = t.slides[i]?) ∧
        t2.slides[p]? = some s ∧
        s = mkSlide sid t.id p out prov) ∧
    (t.slides.length ≤ p →
      t.replaceAt p sid out prov = Except.error OpError.InvalidPosition) := by
  constructor
  · intro hp
    have hlen : (t.slides.take p).length = p := by
      simp [Nat.min_eq_left (le_of_lt hp)]
    refine ⟨{ t with slides := t.slides.take p ++ [mkSlide sid t.id p out prov] },
      mkSlide sid t.id p out prov, ?_, ?_, ?_, ?_, rfl⟩
    · unfold Thread.replaceAt
      rw [if_pos hp]
    · simp [hlen]
    · intro i hi
      show (t.slides.take p ++ [mkSlide sid t.id p out prov])[i]? = t.slides[i]?
      rw [List.getElem?_append, hlen, if_pos hi, List.getElem?_take, if_pos hi]
    · show (t.slides.take p ++ [mkSlide sid t.id p out prov])[p]? = _
      rw [List.getElem?_append, hlen, if_neg (lt_irrefl p)]
      simp
  · intro hp
    unfold Thread.replaceAt
    rw [if_neg (not_lt.mpr hp)]

/-- Witness for C3: on a two-slide thread, replacing at position 0 leaves
exactly one slide, and replacing at position 5 is `InvalidPosition`. -/
theorem c3_witness :
    (∃ t2 s,
      Thread.replaceAt
        { id := 0, kind := ThreadKind.main, slides := [sDemo, sDemo],
          origin := none, status := ThreadStatus.active } 0 7
        { content := "x", actions := [] } "regenerate" = Except.ok (t2, s) ∧
      t2.slides.length = 0 + 1 ∧
      (∀ i, i < 0 → t2.slides[i]? =
        ([sDemo, sDemo] : List Slide)[i]?) ∧
      t2.slides[0]? = some s ∧
      s = mkSlide 7 0 0 { content := "x", actions := [] } "regenerate") ∧
    Thread.replaceAt
      { id := 0, kind := ThreadKind.main, slides := [sDemo, sDemo],
        origin := none, status := ThreadStatus.active } 5 7
      { content := "x", actions := [] } "regenerate" =
        Except.error OpError.InvalidPosition := by
  constructor
  · exact (c3_replaceAt_truncates
      { id := 0, kind := ThreadKind.main, slides := [sDemo, sDemo],
        origin := none, status := ThreadStatus.active } 0 7
      { content := "x", actions := [] } "regenerate").1 (by decide)
  · exact (c3_replaceAt_truncates
      { id := 0, kind := ThreadKind.main, slides := [sDemo, sDemo],
        origin := none, status := ThreadStatus.active } 5 7
      { content := "x", actions := [] } "regenerate").2 (by decide)

/-- C4: when content generation fails during a `branch`, the failure is
surfaced as `GenerationFailure`; the operation returns no new graph at
all, so the Thread Graph the caller holds — cursor, main thread and
detour map — is exactly the one from before the attempt, and the detour
thread the operation constructed before consulting the gateway is never
published. -/
theorem c4_branch_failure_publishes_nothing (gen : Gen) (g : ThreadGraph)
    (c : String) (hw : WF g) (hfail : gen (g.branchRequest c) = none) :
    g.branch gen c = Except.error OpError.GenerationFailure ∧
    ∀ g2 s, g.branch gen c ≠ Except.ok (g2, s) := by
  obtain ⟨t, hf, _⟩ := hw.cursor_found
  have h1 : g.branch gen c = Except.error OpError.GenerationFailure := by
    unfold ThreadGraph.branch
    simp only [hf, hfail]
  refine ⟨h1, ?_⟩
  intro g2 s hcon
  rw [h1] at hcon
  exact absurd hcon (by simp)

/-- Witness for C4: branching on the demo session with a failing gateway
surfaces `GenerationFailure`. -/
theorem c4_witness :
    gDemo.branch genFailDemo "Borrow Checker" =
      Except.error OpError.GenerationFailure := by
  have hw : WF gDemo :=
    wf_start genDemo "s1" "Rust Ownership" gDemo sDemo rfl
  exact (c4_branch_failure_publishes_nothing genFailDemo gDemo "Borrow Checker"
    hw rfl).1

/-- C5: `advance` never fails when a cached next slide exists and never
regenerates an existing slide — with a slide cached at position + 1 it
returns that slide, moves the cursor forward by one and its result does
not depend on the Synthesizer at all; with no cached slide it calls the
Synthesizer, appends the generated slide to the active thread and moves
the cursor forward by one. -/
theorem c5_advance_reuses_cached (gen gen2 : Gen) (g : ThreadGraph)
    (t : Thread) (hf : g.findThread g.cursor.threadId = some t) :
    (∀ s, t.slides[g.cursor.position + 1]? = some s →
      g.advance gen = Except.ok
        ({ g with cursor := { threadId := g.cursor.threadId,
                              position := g.cursor.position + 1 } }, s) ∧
      g.advance gen = g.advance gen2) ∧
    (t.slides[g.cursor.position + 1]? = none →
      ∀ out, gen (g.advanceRequest t.kind) = some out →
        ∃ s g2, g.advance gen = Except.ok (g2, s) ∧
          s = mkSlide g.nextSlideId t.id t.slides.length out "advance" ∧
          g2.findThread g.cursor.threadId = some (t.appendSlide s) ∧
          g2.cursor.threadId = g.cursor.threadId ∧
          g2.cursor.position = g.cursor.position + 1) := by
  constructor
  · intro s hs
    have h1 : g.advance gen = Except.ok
        ({ g with cursor := { threadId := g.cursor.threadId,
                              position := g.cursor.position + 1 } }, s) := by
      unfold ThreadGraph.advance
      simp only [hf, hs]
    have h2 : g.advance gen2 = Except.ok
        ({ g with cursor := { threadId := g.cursor.threadId,
                              position := g.cursor.position + 1 } }, s) := by
      unfold ThreadGraph.advance
      simp only [hf, hs]
    exact ⟨h1, h1.trans h2.symm⟩
  · intro hs out hgen
    refine ⟨mkSlide g.nextSlideId t.id t.slides.length out "advance",
      { g.setThread (t.appendSlide
          (mkSlide g.nextSlideId t.id t.slides.length out "advance")) with
        cursor := { threadId := g.cursor.threadId,
                    position := g.cursor.position + 1 },
        nextSlideId := g.nextSlideId + 1 }, ?_, rfl, ?_, rfl, rfl⟩
    · unfold ThreadGraph.advance
      simp only [hf, hs, hgen]
    · have htid : t.id = g.cursor.threadId := (findThread_some g _ t hf).1
      have h1 : g.findThread t.id = some t := by
        rw [htid]
        exact hf
      have h2 := findThread_setThread_self g
        (t.appendSlide (mkSlide g.nextSlideId t.id t.slides.length out "advance"))
        t h1
      show (g.setThread _).findThread g.cursor.threadId = _
      rw [← htid]
      exact h2

/-- Witness for C5: on a session whose main thread holds two slides with
the cursor at 0, `advance` returns the cached second slide identically
under a working and a failing gateway, and on the demo session (one
slide, cursor at 0) it appends a generated slide. -/
theorem c5_witness :
    (ThreadGraph.advance genDemo
        { gDemo with mainThread :=
            { id := 0, kind := ThreadKind.main, slides := [sDemo, sDemo],
              origin := none, status := ThreadStatus.active } } =
      ThreadGraph.advance genFailDemo
        { gDemo with mainThread :=
            { id := 0, kind := ThreadKind.main, slides := [sDemo, sDemo],
              origin := none, status := ThreadStatus.active } }) ∧
    (∃ s g2, gDemo.advance genDemo = Except.ok (g2, s) ∧
      g2.cursor.position = gDemo.cursor.position + 1) := by
  constructor
  · exact ((c5_advance_reuses_cached genDemo genFailDemo
      { gDemo with mainThread :=
          { id := 0, kind := ThreadKind.main, slides := [sDemo, sDemo],
            origin := none, status := ThreadStatus.active } }
      { id := 0, kind := ThreadKind.main, slides := [sDemo, sDemo],
        origin := none, status := ThreadStatus.active } rfl).1 sDemo rfl).2
  · obtain ⟨s, g2, h1, _, _, _, h5⟩ :=
      (c5_advance_reuses_cached genDemo genDemo gDemo gDemo.mainThread rfl).2
        rfl { content := "generated", actions := [] } rfl
    exact ⟨s, g2, h1, h5⟩

/-- C1: after every Thread Graph operation — `start` establishing, and
`advance`, `goBack`, `branch`, `returnToMain`, `regenerateCurrent` and
`extend` preserving, the well-formedness invariant — the cursor is valid:
it references the main thread or a non-archived detour, its position is a
valid index into that thread's slide sequence, and at most one thread is
active (the remaining statuses being `suspended` or `archived` by the
status type itself). -/
theorem c1_cursor_always_valid :
    (∀ gen sid topic g s,
      ThreadGraph.start gen sid topic = Except.ok (g, s) →
        WF g ∧ CursorValid g) ∧
    (∀ gen g g2 s, WF g → g.advance gen = Except.ok (g2, s) →
      WF g2 ∧ CursorValid g2) ∧
    (∀ g g2 s, WF g → g.goBack = Except.ok (g2, s) →
      WF g2 ∧ CursorValid g2) ∧
    (∀ gen g c g2 s, WF g → g.branch gen c = Except.ok (g2, s) →
      WF g2 ∧ CursorValid g2) ∧
    (∀ gen g g2 s, WF g → g.returnToMain gen = Except.ok (g2, s) →
      WF g2 ∧ CursorValid g2) ∧
    (∀ gen g hint g2 s, WF g → g.regenerateCurrent gen hint = Except.ok (g2, s) →
      WF g2 ∧ CursorValid g2) ∧
    (∀ gen g n g2 s, WF g → g.extend gen n = Except.ok (g2, s) →
      WF g2 ∧ CursorValid g2) := by
  refine ⟨?_, ?_, ?_, ?_, ?_, ?_, ?_⟩
  · intro gen sid topic g s h
    have hw := wf_start gen sid topic g s h
    exact ⟨hw, wf_cursorValid g hw⟩
  · intro gen g g2 s hw h
    have hw2 := wf_advance gen g g2 s hw h
    exact ⟨hw2, wf_cursorValid g2 hw2⟩
  · intro g g2 s hw h
    have hw2 := wf_goBack g g2 s hw h
    exact ⟨hw2, wf_cursorValid g2 hw2⟩
  · intro gen g c g2 s hw h
    have hw2 := wf_branch gen g c g2 s hw h
    exact ⟨hw2, wf_cursorValid g2 hw2⟩
  · intro gen g g2 s hw h
    have hw2 := wf_returnToMain gen g g2 s hw h
    exact ⟨hw2, wf_cursorValid g2 hw2⟩
  · intro gen g hint g2 s hw h
    have hw2 := wf_regenerateCurrent gen g hint g2 s hw h
    exact ⟨hw2, wf_cursorValid g2 hw2⟩
  · intro gen g n g2 s hw h
    have hw2 := wf_extend gen g n g2 s hw h
    exact ⟨hw2, wf_cursorValid g2 hw2⟩

/-- Witness for C1: the started demo session is well-formed with a valid
cursor, and so are the results of a concrete `advance` and a concrete
`branch` on it. -/
theorem c1_witness :
    (WF gDemo ∧ CursorValid gDemo) ∧
    (∃ p, gDemo.advance genDemo = Except.ok p ∧ WF p.1 ∧ CursorValid p.1) ∧
    (∃ p, gDemo.branch genDemo "Borrow Checker" = Except.ok p ∧
      WF p.1 ∧ CursorValid p.1) := by
  have h0 := c1_cursor_always_valid.1 genDemo "s1" "Rust Ownership" gDemo sDemo rfl
  refine ⟨h0, ⟨_, rfl, ?_⟩, ⟨_, rfl, ?_⟩⟩
  · exact c1_cursor_always_valid.2.1 genDemo gDemo _ _ h0.1 rfl
  · exact c1_cursor_always_valid.2.2.2.1 genDemo gDemo "Borrow Checker" _ _ h0.1 rfl

/-- The fresh one-slide detour created by a `branch` is found in the
resulting graph under the pre-branch `nextThreadId`. -/
theorem branch_graph_find_new (g : ThreadGraph) (hw : WF g) (t : Thread)
    (hf : g.findThread g.cursor.threadId = some t) (sl : Slide)
    (g2 : ThreadGraph)
    (hmain : g2.mainThread =
      (g.setThread { t with status := ThreadStatus.suspended }).mainThread)
    (hdet : g2.detours =
      (g.setThread { t with status := ThreadStatus.suspended }).detours ++
        [{ id := g.nextThreadId, kind := ThreadKind.detour, slides := [sl],
           origin := some { threadId := g.cursor.threadId,
                            position := g.cursor.position },
           status := ThreadStatus.active }]) :
    g2.findThread g.nextThreadId =
      some { id := g.nextThreadId, kind := ThreadKind.detour, slides := [sl],
             origin := some { threadId := g.cursor.threadId,
                              position := g.cursor.position },
             status := ThreadStatus.active } := by
  have htid : t.id = g.cursor.threadId := (findThread_some g _ t hf).1
  have htlt : t.id < g.nextThreadId := htid ▸ cursorTid_lt_next g hw
  refine findThread_append_detour_self _ _ g2 hmain hdet ?_ ?_
  · show (g.setThread { t with status := ThreadStatus.suspended }).mainThread.id ≠
      g.nextThreadId
    have hG1 :
        (g.setThread { t with status := ThreadStatus.suspended }).mainThread.id =
          g.mainThread.id := by
      rcases mainThread_setThread g { t with status := ThreadStatus.suspended } with
        ⟨h1, h2⟩ | ⟨h1, h2⟩
      · rw [h1]; exact h2
      · rw [h1]
    rw [hG1, hw.main_id]
    have := hw.next_pos
    omega
  · intro d hd
    rcases mem_detours_setThread g { t with status := ThreadStatus.suspended } d hd
      with h1 | h1
    · rw [h1]
      exact Nat.ne_of_lt htlt
    · exact Nat.ne_of_lt (hw.detour_id_lt d h1)

/-- C2: performing `branch` and then immediately `returnToMain` restores
the active thread to the thread that was active before the branch — the
cursor points back at the pre-branch thread id and that thread is the
active one — and sets the cursor position to origin.position + 1, the
origin being the (thread, position) recorded when the detour was
spawned, which is the pre-branch cursor. -/
theorem c2_branch_return_restores (genB genR : Gen) (g : ThreadGraph)
    (c : String) (g1 g2 : ThreadGraph) (s1 s2 : Slide) (hw : WF g)
    (hb : g.branch genB c = Except.ok (g1, s1))
    (hr : g1.returnToMain genR = Except.ok (g2, s2)) :
    g2.cursor.threadId = g.cursor.threadId ∧
    g2.cursor.position = g.cursor.position + 1 ∧
    ∃ t, g2.findThread g.cursor.threadId = some t ∧
      t.status = ThreadStatus.active := by
  have hw1 : WF g1 := wf_branch genB g c g1 s1 hw hb
  have hw2 : WF g2 := wf_returnToMain genR g1 g2 s2 hw1 hr
  obtain ⟨t, out, hf, hgen, hs1, hg1⟩ := branch_ok genB g c g1 s1 hb
  obtain ⟨t2, o2, pt2, hf2, ho2, hfp2, hcase⟩ := returnToMain_ok genR g1 g2 s2 hr
  subst hs1
  have hfn := branch_graph_find_new g hw t hf
    (mkSlide g.nextSlideId g.nextThreadId 0 out "branch") g1
    (by rw [hg1]) (by rw [hg1])
  have hc1 : g1.cursor.threadId = g.nextThreadId := by rw [hg1]
  rw [hc1] at hf2
  rw [hfn] at hf2
  cases hf2
  have ho2n :
      some (Origin.mk g.cursor.threadId g.cursor.position) = some o2 := ho2
  cases ho2n
  have hcth : g2.cursor.threadId = g.cursor.threadId ∧
      g2.cursor.position = g.cursor.position + 1 := by
    rcases hcase with ⟨hc, hg2⟩ | ⟨hc, out2, hgen2, hs2, hg2⟩
    · subst hg2
      exact ⟨rfl, rfl⟩
    · subst hg2
      exact ⟨rfl, rfl⟩
  refine ⟨hcth.1, hcth.2, ?_⟩
  obtain ⟨tc, hftc, _⟩ := hw2.cursor_found
  have hact := (hw2.active_iff _ tc hftc).mpr rfl
  rw [hcth.1] at hftc
  exact ⟨tc, hftc, hact⟩

/-- Witness for C2: on the demo session, branching to a detour and
immediately returning yields the main thread active with the cursor at
position 1 = origin.position + 1. -/
theorem c2_witness :
    ∃ p q, gDemo.branch genDemo "Borrow Checker" = Except.ok p ∧
      p.1.returnToMain genDemo = Except.ok q ∧
      q.1.cursor.threadId = gDemo.cursor.threadId ∧
      q.1.cursor.position = gDemo.cursor.position + 1 ∧
      ∃ t, q.1.findThread gDemo.cursor.threadId = some t ∧
        t.status = ThreadStatus.active := by
  have hw : WF gDemo := wf_start genDemo "s1" "Rust Ownership" gDemo sDemo rfl
  refine ⟨_, _, rfl, rfl, ?_⟩
  exact c2_branch_return_restores genDemo genDemo gDemo "Borrow Checker"
    _ _ _ _ hw rfl rfl

/-- C6: for every session store and every action name outside the Action
Router's fixed vocabulary, `performAction` fails with `UnsupportedAction`
and returns the store unchanged — no thread, cursor or detour-map
mutation, no partial application. -/
theorem c6_unsupported_action_no_mutation (gen : Gen) (store : SessionStore)
    (sid name : String) (params : List (String × String))
    (h : name ∉ actionVocabulary) :
    performAction gen store sid name params =
      (store, Except.error OpError.UnsupportedAction) := by
  have h6 : ¬ (name = "advance") ∧ ¬ (name = "goBack") ∧ ¬ (name = "branch") ∧
      ¬ (name = "returnToMain") ∧ ¬ (name = "regenerateCurrent") ∧
      ¬ (name = "extend") := by
    simpa [actionVocabulary] using h
  unfold performAction routeAction
  rw [if_neg h6.1, if_neg h6.2.1, if_neg h6.2.2.1, if_neg h6.2.2.2.1,
    if_neg h6.2.2.2.2.1, if_neg h6.2.2.2.2.2]

/-- Witness for C6: the unknown action name "frobnicate" on the demo
store is rejected with the store returned unchanged. -/
theorem c6_witness :
    performAction genDemo [("s1", gDemo)] "s1" "frobnicate" [] =
      ([("s1", gDemo)], Except.error OpError.UnsupportedAction) :=
  c6_unsupported_action_no_mutation genDemo [("s1", gDemo)] "s1" "frobnicate" []
    (by decide)

/-- C7: every `branch` call creates a fresh detour thread — after
branching, returning, stepping back to the same slide and branching
again (two branches spawned from the same origin position), the two
detours have distinct ids, the same recorded origin, and both are
retained in the detour map, the earlier one suspended and each
independently reachable by its id. -/
theorem c7_two_branches_distinct_detours (genA genB genC : Gen)
    (g : ThreadGraph) (c1 c2 : String) (g1 g2 g3 g4 : ThreadGraph)
    (s1 s2 s3 s4 : Slide) (hw : WF g)
    (h1 : g.branch genA c1 = Except.ok (g1, s1))
    (h2 : g1.returnToMain genB = Except.ok (g2, s2))
    (h3 : g2.goBack = Except.ok (g3, s3))
    (h4 : g3.branch genC c2 = Except.ok (g4, s4)) :
    ∃ d1 d2,
      g4.findThread g.nextThreadId = some d1 ∧
      g4.findThread g3.nextThreadId = some d2 ∧
      g.nextThreadId ≠ g3.nextThreadId ∧
      d1.id = g.nextThreadId ∧ d2.id = g3.nextThreadId ∧
      d1.origin = some { threadId := g.cursor.threadId,
                         position := g.cursor.position } ∧
      d2.origin = some { threadId := g.cursor.threadId,
                         position := g.cursor.position } ∧
      d1.status = ThreadStatus.suspended ∧
      d1 ∈ g4.detours ∧ d2 ∈ g4.detours := by
  have hw1 : WF g1 := wf_branch genA g c1 g1 s1 hw h1
  have hw2 : WF g2 := wf_returnToMain genB g1 g2 s2 hw1 h2
  have hw3 : WF g3 := wf_goBack g2 g3 s3 hw2 h3
  have hw4 : WF g4 := wf_branch genC g3 c2 g4 s4 hw3 h4
  obtain ⟨t, out, hf, hgen, hs1, hg1⟩ := branch_ok genA g c1 g1 s1 h1
  subst hs1
  have hfn := branch_graph_find_new g hw t hf
    (mkSlide g.nextSlideId g.nextThreadId 0 out "branch") g1
    (by rw [hg1]) (by rw [hg1])
  have hc1tid : g1.cursor.threadId = g.nextThreadId := by rw [hg1]
  have hn1 : g1.nextThreadId = g.nextThreadId + 1 := by rw [hg1]
  obtain ⟨t2, o2, pt2, hf2, ho2, hfp2, hcase2⟩ := returnToMain_ok genB g1 g2 s2 h2
  rw [hc1tid] at hf2
  rw [hfn] at hf2
  cases hf2
  have ho2n :
      some (Origin.mk g.cursor.threadId g.cursor.position) = some o2 := ho2
  cases ho2n
  -- the suspended first detour, as it sits in the graph after the return
  have hg2facts :
      g2.findThread g.nextThreadId =
        some { id := g.nextThreadId, kind := ThreadKind.detour,
               slides := [mkSlide g.nextSlideId g.nextThreadId 0 out "branch"],
               origin := some { threadId := g.cursor.threadId,
                                position := g.cursor.position },
               status := ThreadStatus.suspended } ∧
      g2.cursor.threadId = g.cursor.threadId ∧
      g2.cursor.position = g.cursor.position + 1 ∧
      g2.nextThreadId = g.nextThreadId + 1 := by
    have hclt : g.cursor.threadId < g.nextThreadId := cursorTid_lt_next g hw
    have hptid : pt2.id = g.cursor.threadId := by
      have := (findThread_some g1 _ pt2 hfp2).1
      exact this
    have hselfG1 :
        (g1.setThread
          { id := g.nextThreadId, kind := ThreadKind.detour,
            slides := [mkSlide g.nextSlideId g.nextThreadId 0 out "branch"],
            origin := some { threadId := g.cursor.threadId,
                             position := g.cursor.position },
            status := ThreadStatus.suspended }).findThread g.nextThreadId =
        some { id := g.nextThreadId, kind := ThreadKind.detour,
               slides := [mkSlide g.nextSlideId g.nextThreadId 0 out "branch"],
               origin := some { threadId := g.cursor.threadId,
                                position := g.cursor.position },
               status := ThreadStatus.suspended } := by
      exact findThread_setThread_self g1 _ _ hfn
    rcases hcase2 with ⟨hc, hg2⟩ | ⟨hc, out2, hgen2, hs2, hg2⟩
    · subst hg2
      refine ⟨?_, rfl, rfl, ?_⟩
      · show ((g1.setThread _).setThread _).findThread g.nextThreadId = _
        rw [findThread_setThread_ne _ _ g.nextThreadId (by
          show g.nextThreadId ≠ pt2.id
          rw [hptid]
          exact fun he => Nat.ne_of_lt hclt he.symm)]
        exact hselfG1
      · show ((g1.setThread _).setThread _).nextThreadId = _
        rw [nextThreadId_setThread, nextThreadId_setThread]
        exact hn1
    · subst hg2
      refine ⟨?_, rfl, rfl, ?_⟩
      · show ((g1.setThread _).setThread _).findThread g.nextThreadId = _
        rw [findThread_setThread_ne _ _ g.nextThreadId (by
          show g.nextThreadId ≠ pt2.id
          rw [hptid]
          exact fun he => Nat.ne_of_lt hclt he.symm)]
        exact hselfG1
      · show ((g1.setThread _).setThread _).nextThreadId = _
        rw [nextThreadId_setThread, nextThreadId_setThread]
        exact hn1
  obtain ⟨hfD1, hg2tid, hg2pos, hg2next⟩ := hg2facts
  obtain ⟨t3, p3, hf3, hpp3, hc3, hg3⟩ := goBack_ok g2 g3 s3 h3
  have hp3 : p3 = g.cursor.position := by
    rw [hg2pos] at hpp3
    omega
  have hg3tid : g3.cursor.threadId = g.cursor.threadId := by
    rw [hg3]
    exact hg2tid
  have hg3pos : g3.cursor.position = g.cursor.position := by
    rw [hg3]
    exact hp3
  have hg3next : g3.nextThreadId = g.nextThreadId + 1 := by
    rw [hg3]
    exact hg2next
  have hfD1g3 : g3.findThread g.nextThreadId =
      some { id := g.nextThreadId, kind := ThreadKind.detour,
             slides := [mkSlide g.nextSlideId g.nextThreadId 0 out "branch"],
             origin := some { threadId := g.cursor.threadId,
                              position := g.cursor.position },
             status := ThreadStatus.suspended } := by
    rw [hg3]
    exact hfD1
  obtain ⟨t4, out4, hf4, hgen4, hs4, hg4⟩ := branch_ok genC g3 c2 g4 s4 h4
  subst hs4
  have hfD2 := branch_graph_find_new g3 hw3 t4 hf4
    (mkSlide g3.nextSlideId g3.nextThreadId 0 out4 "branch") g4
    (by rw [hg4]) (by rw [hg4])
  have ht4id : t4.id = g3.cursor.threadId := (findThread_some g3 _ t4 hf4).1
  have hfD1g4 : g4.findThread g.nextThreadId =
      some { id := g.nextThreadId, kind := ThreadKind.detour,
             slides := [mkSlide g.nextSlideId g.nextThreadId 0 out "branch"],
             origin := some { threadId := g.cursor.threadId,
                              position := g.cursor.position },
             status := ThreadStatus.suspended } := by
    have hne2 : g.nextThreadId ≠ g3.nextThreadId := by
      rw [hg3next]
      omega
    have e1 := findThread_append_detour
      (g3.setThread { t4 with status := ThreadStatus.suspended }) _ g4
      (by rw [hg4]) (by rw [hg4]) g.nextThreadId hne2
    rw [e1, findThread_setThread_ne g3 _ g.nextThreadId (by
      show g.nextThreadId ≠ t4.id
      rw [ht4id, hg3tid]
      exact fun he => Nat.ne_of_lt (cursorTid_lt_next g hw) he.symm)]
    exact hfD1g3
  have hmem_of_find : ∀ (gg : ThreadGraph) (d : Thread), WF gg →
      gg.findThread d.id = some d → 1 ≤ d.id → d ∈ gg.detours := by
    intro gg d hwg hfd hpos
    obtain ⟨_, hmem⟩ := findThread_some gg _ d hfd
    unfold ThreadGraph.threads at hmem
    rcases List.mem_cons.mp hmem with hh | hh
    · exfalso
      have : d.id = 0 := by rw [hh]; exact hwg.main_id
      omega
    · exact hh
  refine ⟨_, _, hfD1g4, hfD2, ?_, rfl, rfl, rfl, ?_, rfl, ?_, ?_⟩
  · rw [hg3next]
    omega
  · show some (Origin.mk g3.cursor.threadId g3.cursor.position) =
      some (Origin.mk g.cursor.threadId g.cursor.position)
    rw [hg3tid, hg3pos]
  · exact hmem_of_find g4 _ hw4 hfD1g4 hw.next_pos
  · refine hmem_of_find g4 _ hw4 hfD2 ?_
    show 1 ≤ g3.nextThreadId
    exact hw3.next_pos

/-- Witness for C7: on the demo session, branch, return, go back and
branch again yield detours 1 and 2, both retained with origin (0, 0),
the first suspended. -/
theorem c7_witness :
    ∃ p1 p2 p3 p4,
      gDemo.branch genDemo "a" = Except.ok p1 ∧
      ThreadGraph.returnToMain genDemo p1.1 = Except.ok p2 ∧
      ThreadGraph.goBack p2.1 = Except.ok p3 ∧
      ThreadGraph.branch genDemo p3.1 "b" = Except.ok p4 ∧
      ∃ d1 d2,
        ThreadGraph.findThread p4.1 gDemo.nextThreadId = some d1 ∧
        ThreadGraph.findThread p4.1 (ThreadGraph.nextThreadId p3.1) = some d2 ∧
        gDemo.nextThreadId ≠ ThreadGraph.nextThreadId p3.1 ∧
        d1.id = gDemo.nextThreadId ∧ d2.id = ThreadGraph.nextThreadId p3.1 ∧
        d1.origin = some { threadId := gDemo.cursor.threadId,
                           position := gDemo.cursor.position } ∧
        d2.origin = some { threadId := gDemo.cursor.threadId,
                           position := gDemo.cursor.position } ∧
        d1.status = ThreadStatus.suspended ∧
        d1 ∈ ThreadGraph.detours p4.1 ∧ d2 ∈ ThreadGraph.detours p4.1 := by
  have hw : WF gDemo := wf_start genDemo "s1" "Rust Ownership" gDemo sDemo rfl
  refine ⟨_, _, _, _, rfl, rfl, rfl, rfl, ?_⟩
  exact c7_two_branches_distinct_detours genDemo genDemo genDemo gDemo "a" "b"
    _ _ _ _ _ _ _ _ hw rfl rfl rfl rfl

/-- C8, counterexample: the claim that every successful call returns a
value containing exactly the contract fields sessionId, activeThreadKind,
currentSlide, position index and total known length is false of the
response shape the frontend source declares: `SlidePayload` of
`frontend/src/lib/api.ts` has no field carrying the active thread kind,
and carries the extra fields `type`, `slide_id`, `layout` and
`allow_freeform_input` beyond the contract. -/
theorem c8_contract_counterexample : ¬ payloadMatchesContract := by
  decide

/-- C8, amended: the successful responses of `startLecture` and
`performAction` carry the `SlidePayload` fields of
`frontend/src/lib/api.ts`; of the spec's contract fields, the session id,
the current slide (content plus `interactive_controls` action
descriptors), the position index and the total known length are present —
as `session_id`, `content` with `interactive_controls`, `slide_index` and
`total_slides` — but no field carries `activeThreadKind`, and the payload
additionally carries `type`, `slide_id`, `layout` and
`allow_freeform_input`, which answer to no contract field. -/
theorem c8_payload_fields_amended :
    ("session_id" ∈ slidePayloadFieldNames ∧
      payloadFieldMeaning "session_id" = some "sessionId") ∧
    ("content" ∈ slidePayloadFieldNames ∧
      "interactive_controls" ∈ slidePayloadFieldNames ∧
      payloadFieldMeaning "content" = some "currentSlide" ∧
      payloadFieldMeaning "interactive_controls" = some "currentSlide") ∧
    ("slide_index" ∈ slidePayloadFieldNames ∧
      payloadFieldMeaning "slide_index" = some "positionIndex") ∧
    ("total_slides" ∈ slidePayloadFieldNames ∧
      payloadFieldMeaning "total_slides" = some "totalKnownLength") ∧
    (∀ p ∈ slidePayloadFieldNames,
      payloadFieldMeaning p ≠ some "activeThreadKind") ∧
    (payloadFieldMeaning "type" = none ∧
      payloadFieldMeaning "slide_id" = none ∧
      payloadFieldMeaning "layout" = none ∧
      payloadFieldMeaning "allow_freeform_input" = none) := by
  decide

/-- C10: for every component whose `type` tag is not one of the six the
renderer's switch handles, `A2UIComponentRenderer` renders nothing
(returns `null`, modelled as `none`) instead of throwing; in particular
the `code` and `image` variants of the `Component` union fall through to
the null-returning default branch. -/
theorem c10_renderer_unhandled_null :
    (∀ (parse : String → Option ConceptMapData) (c : Component),
      componentTypeTag c ∉ handledTypeTags → renderComponent parse c = none) ∧
    (∀ (parse : String → Option ConceptMapData) code lang showln,
      renderComponent parse (Component.code code lang showln) = none) ∧
    (∀ (parse : String → Option ConceptMapData) src alt cap,
      renderComponent parse (Component.image src alt cap) = none) := by
  refine ⟨?_, ?_, ?_⟩
  · intro parse c h
    cases c with
    | text a b =>
      exact absurd (show ("text" : String) ∈ handledTypeTags by decide) h
    | markdown a =>
      exact absurd (show ("markdown" : String) ∈ handledTypeTags by decide) h
    | button a b c2 d =>
      exact absurd (show ("button" : String) ∈ handledTypeTags by decide) h
    | container a b =>
      exact absurd (show ("container" : String) ∈ handledTypeTags by decide) h
    | code a b c2 => rfl
    | image a b c2 => rfl
    | concept_map a b =>
      exact absurd (show ("concept_map" : String) ∈ handledTypeTags by decide) h
    | code_execution a b =>
      exact absurd (show ("code_execution" : String) ∈ handledTypeTags by decide) h
  · intro parse code lang showln
    rfl
  · intro parse src alt cap
    rfl

/-- Witness for C10: the `image` variant's tag is outside the handled
set and the renderer returns `none` on a concrete image component. -/
theorem c10_witness :
    componentTypeTag (Component.image "diagram.png" "a diagram" none) ∉
      handledTypeTags ∧
    renderComponent (fun _ => none)
      (Component.image "diagram.png" "a diagram" none) = none :=
  ⟨by decide,
    c10_renderer_unhandled_null.1 (fun _ => none)
      (Component.image "diagram.png" "a diagram" none) (by decide)⟩

end AdaptiveProfessor
